import Mathlib

/-!
Verification development for the Dolphin graphics-mod asset subsystem
(material property codec, portable mesh binary codec, glTF mesh importer,
shader symbol-conflict scanner, and the custom-pipeline composition check).

The definitions below are shallow embeddings of the C++ sources:
  Source/Core/VideoCommon/Assets/MaterialAsset.cpp
  Source/Core/VideoCommon/Assets/MeshAsset.cpp
  Source/Core/VideoCommon/GraphicsModSystem/Runtime/Actions/CustomPipelineAction.cpp

Machine integers are modelled as `Nat`/`Int` with explicit `% 2^w` where
overflow or truncation matters.  Bytes are `Nat` values (< 256 for
well-formed data).  C++ `double` (the JSON number type) and C++ `float`
are modelled as abstract types `D` and `F` together with the cast
functions the code uses (`static_cast` between them and `s32`); theorems
take the relevant cast round-trip facts as hypotheses, which hold for the
real IEEE types (every `float` and every `s32` is exactly representable
as a `double`).
-/

set_option maxRecDepth 4096

/-! ## Byte-level utilities (little-endian encodings used by memcpy models) -/

/-- Little-endian byte encoding of `v` into exactly `n` bytes
(models `memcpy` of an `n`-byte unsigned integer). -/
def bytesOfNatLE : Nat → Nat → List Nat
  | 0, _ => []
  | n + 1, v => (v % 256) :: bytesOfNatLE n (v / 256)

/-- Little-endian byte decoding (models reading an unsigned integer from memory). -/
def natOfBytesLE : List Nat → Nat
  | [] => 0
  | b :: bs => b + 256 * natOfBytesLE bs

theorem length_bytesOfNatLE (n v : Nat) : (bytesOfNatLE n v).length = n := by
  induction n generalizing v with
  | zero => rfl
  | succ n ih => simp [bytesOfNatLE, ih]

theorem natOfBytesLE_bytesOfNatLE (n v : Nat) (h : v < 256 ^ n) :
    natOfBytesLE (bytesOfNatLE n v) = v := by
  induction n generalizing v with
  | zero => simp at h; simp [bytesOfNatLE, natOfBytesLE, h]
  | succ n ih =>
    have hlt : v / 256 < 256 ^ n := by
      rw [Nat.div_lt_iff_lt_mul (by norm_num)]
      calc v < 256 ^ (n + 1) := h
        _ = 256 ^ n * 256 := by ring
    simp [bytesOfNatLE, natOfBytesLE, ih _ hlt]
    omega

/-- Read `n` bytes as a little-endian value, returning the rest of the stream. -/
def readLE (n : Nat) (bs : List Nat) : Nat × List Nat :=
  (natOfBytesLE (bs.take n), bs.drop n)

/-- Read `n` raw bytes, returning them and the rest of the stream. -/
def readBytes (n : Nat) (bs : List Nat) : List Nat × List Nat :=
  (bs.take n, bs.drop n)

theorem readLE_append (n v : Nat) (rest : List Nat) (h : v < 256 ^ n) :
    readLE n (bytesOfNatLE n v ++ rest) = (v, rest) := by
  unfold readLE
  have hlen := length_bytesOfNatLE n v
  have htake : List.take n (bytesOfNatLE n v ++ rest) = bytesOfNatLE n v := by
    rw [List.take_append_of_le_length hlen.symm.le, List.take_of_length_le hlen.le]
  have hdrop : List.drop n (bytesOfNatLE n v ++ rest) = rest := by
    rw [List.drop_append_of_le_length hlen.symm.le, List.drop_eq_nil_of_le hlen.le,
      List.nil_append]
  rw [htake, hdrop, natOfBytesLE_bytesOfNatLE n v h]

theorem readBytes_append (xs rest : List Nat) :
    readBytes xs.length (xs ++ rest) = (xs, rest) := by
  unfold readBytes
  simp

/-! ## JSON model (picojson values)

`D` is the C++ `double` type: every picojson number is a `double`.
`obj` carries an association list of fields; picojson objects are
`std::map`s, so only keyed lookup is semantically relevant and the list
order below follows the insertion order of the C++ code. -/

inductive JVal (D : Type) where
  | num (d : D)
  | str (s : String)
  | boolean (b : Bool)
  | arr (xs : List (JVal D))
  | obj (fields : List (String × JVal D))

/-- Common::ToLower (ASCII lowercasing of a std::string). -/
def toLowerStr (s : String) : String := String.mk (s.data.map Char.toLower)

/-- `std::map::find` on a picojson object. -/
def jlookup {D : Type} (fields : List (String × JVal D)) (key : String) : Option (JVal D) :=
  match fields with
  | [] => none
  | (k, v) :: rest => if k = key then some v else jlookup rest key

/-- The numeric casts the material codec performs between C++ `double`
(`D`, the JSON number type), C++ `float` (`F`) and `s32` (`Int`), plus
the 32-bit pattern of a `float` (what `memcpy` of a float writes).
These are kept abstract; theorems that need the IEEE cast round-trip
facts take them as explicit hypotheses. -/
structure Casts (D F : Type) where
  doubleToInt : D → Int
  intToDouble : Int → D
  doubleToFloat : D → F
  floatToDouble : F → D
  floatBits : F → Nat

/-- `static_cast<s32>(static_cast<double>(x)) == x` for every in-range s32:
true of IEEE doubles, taken as a hypothesis where needed. -/
def IntCastLaw {D F : Type} (C : Casts D F) : Prop :=
  ∀ x : Int, -(2 ^ 31) ≤ x → x < 2 ^ 31 → C.doubleToInt (C.intToDouble x) = x

/-- `static_cast<float>(static_cast<double>(x)) == x` for every float:
true of IEEE floats/doubles, taken as a hypothesis where needed. -/
def FloatCastLaw {D F : Type} (C : Casts D F) : Prop :=
  ∀ x : F, C.doubleToFloat (C.floatToDouble x) = x

/-- A concrete instantiation of the casts (used by the witnesses): both
`double` and `float` are represented by `Int`, with identity casts. -/
def castsId : Casts Int Int :=
  { doubleToInt := fun x => x
    intToDouble := fun x => x
    doubleToFloat := fun x => x
    floatToDouble := fun x => x
    floatBits := fun x => (x % (2 ^ 32 : Int)).toNat }

theorem castsId_intCastLaw : IntCastLaw castsId := by
  intro x _ _; rfl

theorem castsId_floatCastLaw : FloatCastLaw castsId := by
  intro x; rfl

/-! ## Material property model (MaterialAsset.h / MaterialAsset.cpp) -/

/-- MaterialProperty::Type. -/
inductive PropertyType where
  | textureAsset
  | int
  | int2
  | int3
  | int4
  | float
  | float2
  | float3
  | float4
  | bool
  | undefined
deriving DecidableEq

/-- MaterialProperty::Value — a std::variant over the asset-id string,
s32, s32 arrays of 2-4, float, float arrays of 2-4, and bool. -/
inductive MatValue (F : Type) where
  | assetId (s : String)
  | int (x : Int)
  | int2 (x y : Int)
  | int3 (x y z : Int)
  | int4 (x y z w : Int)
  | float (x : F)
  | float2 (x y : F)
  | float3 (x y z : F)
  | float4 (x y z w : F)
  | bool (b : Bool)
deriving DecidableEq

structure MaterialProperty (F : Type) where
  m_code_name : String
  m_type : PropertyType
  m_value : Option (MatValue F)
deriving DecidableEq

structure MaterialData (F : Type) where
  properties : List (MaterialProperty F)
  shader_asset : String
deriving DecidableEq

/-! ## Material JSON parsing (FromJson / ParseMaterialProperties /
ParsePropertyValue / ParseNumeric) -/

/-- `json_value.is<double>()` + `get<double>()`. -/
def getNum {D : Type} : JVal D → Option D
  | .num d => some d
  | _ => none

/-- The element checks of `ParseNumeric` for arrays: every element must be
a JSON double. -/
def numsOf {D : Type} : List (JVal D) → Option (List D)
  | [] => some []
  | x :: rest =>
    match getNum x, numsOf rest with
    | some d, some ds => some (d :: ds)
    | _, _ => none

/-- `ParseNumeric` for `ElementCount > 1`: the value must be a JSON array of
exactly `n` elements, all doubles (checked in that order in the C++). -/
def getNumArray {D : Type} (n : Nat) : JVal D → Option (List D)
  | .arr xs => if xs.length = n then numsOf xs else none
  | _ => none

/-- `ParseNumeric<s32, 1>`. -/
def parseInt1 {D F : Type} (C : Casts D F) (j : JVal D) : Option (MatValue F) :=
  match j with
  | .num d => some (.int (C.doubleToInt d))
  | _ => none

/-- `ParseNumeric<float, 1>`. -/
def parseFloat1 {D F : Type} (C : Casts D F) (j : JVal D) : Option (MatValue F) :=
  match j with
  | .num d => some (.float (C.doubleToFloat d))
  | _ => none

/-- ParsePropertyValue from MaterialAsset.cpp.  NOTE: the C++
`case Type_TextureAsset` has no `break`; when the JSON value is not a
string, control falls through into `case Type_Int`, i.e. the value is
parsed with `ParseNumeric<s32, 1>`.  The embedding reproduces that
fall-through faithfully. -/
def parsePropertyValue {D F : Type} (C : Casts D F) (t : PropertyType) (j : JVal D) :
    Option (MatValue F) :=
  match t with
  | .textureAsset =>
    match j with
    | .str s => some (.assetId s)
    | _ => parseInt1 C j
  | .int => parseInt1 C j
  | .int2 =>
    match getNumArray 2 j with
    | some [a, b] => some (.int2 (C.doubleToInt a) (C.doubleToInt b))
    | _ => none
  | .int3 =>
    match getNumArray 3 j with
    | some [a, b, c] => some (.int3 (C.doubleToInt a) (C.doubleToInt b) (C.doubleToInt c))
    | _ => none
  | .int4 =>
    match getNumArray 4 j with
    | some [a, b, c, d] =>
      some (.int4 (C.doubleToInt a) (C.doubleToInt b) (C.doubleToInt c) (C.doubleToInt d))
    | _ => none
  | .float => parseFloat1 C j
  | .float2 =>
    match getNumArray 2 j with
    | some [a, b] => some (.float2 (C.doubleToFloat a) (C.doubleToFloat b))
    | _ => none
  | .float3 =>
    match getNumArray 3 j with
    | some [a, b, c] => some (.float3 (C.doubleToFloat a) (C.doubleToFloat b) (C.doubleToFloat c))
    | _ => none
  | .float4 =>
    match getNumArray 4 j with
    | some [a, b, c, d] =>
      some (.float4 (C.doubleToFloat a) (C.doubleToFloat b) (C.doubleToFloat c)
        (C.doubleToFloat d))
    | _ => none
  | .bool =>
    match j with
    | .boolean b => some (.bool b)
    | _ => none
  | .undefined => none

/-- The fixed case-insensitive type-name table of ParseMaterialProperties. -/
def materialTypeNames : List (String × PropertyType) :=
  [("texture_asset", .textureAsset), ("int", .int), ("int2", .int2), ("int3", .int3),
   ("int4", .int4), ("float", .float), ("float2", .float2), ("float3", .float3),
   ("float4", .float4), ("bool", .bool)]

/-- `std::find_if` over the type-name table. -/
def lookupTypeName (s : String) : Option PropertyType :=
  (materialTypeNames.find? (fun p => p.1 = s)).map (fun p => p.2)

/-- ParseMaterialProperties from MaterialAsset.cpp.  The accumulator models
the `data->properties` vector the C++ pushes into: on failure the
already-pushed properties remain in the out-parameter. -/
def parseMaterialProperties {D F : Type} (C : Casts D F) :
    List (JVal D) → List (MaterialProperty F) → Bool × List (MaterialProperty F)
  | [], acc => (true, acc)
  | v :: rest, acc =>
    match v with
    | .obj fields =>
      match jlookup fields "type" with
      | some (.str typeStr) =>
        match lookupTypeName (toLowerStr typeStr) with
        | some t =>
          match jlookup fields "code_name" with
          | some (.str cn) =>
            match jlookup fields "value" with
            | some jv =>
              match parsePropertyValue C t jv with
              | some value => parseMaterialProperties C rest (acc ++ [⟨cn, t, some value⟩])
              | none => (false, acc)
            | none => parseMaterialProperties C rest (acc ++ [⟨cn, t, none⟩])
          | some _ => (false, acc)
          | none => (false, acc)
        | none => (false, acc)
      | some _ => (false, acc)
      | none => (false, acc)
    | _ => (false, acc)

/-- MaterialData::FromJson.  The returned pair is (return value, state of
the out-parameter `data` after the call). -/
def MaterialData.FromJson {D F : Type} (C : Casts D F) (json : List (String × JVal D))
    (data : MaterialData F) : Bool × MaterialData F :=
  match jlookup json "values" with
  | some (.arr values) =>
    match parseMaterialProperties C values data.properties with
    | (true, props) =>
      match jlookup json "shader_asset" with
      | some (.str sa) => (true, { data with properties := props, shader_asset := sa })
      | some _ => (false, { data with properties := props })
      | none => (false, { data with properties := props })
    | (false, props) => (false, { data with properties := props })
  | some _ => (false, data)
  | none => (false, data)

/-! ## Material JSON serialization (ToJson) -/

/-- The `type` string MaterialData::ToJson emits for each property type;
`Type_Undefined` emits no `type` field at all. -/
def propertyTypeName : PropertyType → Option String
  | .textureAsset => some "texture_asset"
  | .int => some "int"
  | .int2 => some "int2"
  | .int3 => some "int3"
  | .int4 => some "int4"
  | .float => some "float"
  | .float2 => some "float2"
  | .float3 => some "float3"
  | .float4 => some "float4"
  | .bool => some "bool"
  | .undefined => none

/-- The `value` field ToJson emits (the std::visit over the variant,
with ArrayToPicoArray for the array cases). -/
def matValueToJson {D F : Type} (C : Casts D F) : MatValue F → JVal D
  | .assetId s => .str s
  | .int x => .num (C.intToDouble x)
  | .int2 x y => .arr [.num (C.intToDouble x), .num (C.intToDouble y)]
  | .int3 x y z => .arr [.num (C.intToDouble x), .num (C.intToDouble y), .num (C.intToDouble z)]
  | .int4 x y z w =>
    .arr [.num (C.intToDouble x), .num (C.intToDouble y), .num (C.intToDouble z),
      .num (C.intToDouble w)]
  | .float x => .num (C.floatToDouble x)
  | .float2 x y => .arr [.num (C.floatToDouble x), .num (C.floatToDouble y)]
  | .float3 x y z =>
    .arr [.num (C.floatToDouble x), .num (C.floatToDouble y), .num (C.floatToDouble z)]
  | .float4 x y z w =>
    .arr [.num (C.floatToDouble x), .num (C.floatToDouble y), .num (C.floatToDouble z),
      .num (C.floatToDouble w)]
  | .bool b => .boolean b

/-- One entry of the `values` array ToJson builds.  Field order lists the
keys in the order the C++ inserts them, which also happens to be their
std::map key order. -/
def propertyToJson {D F : Type} (C : Casts D F) (p : MaterialProperty F) : JVal D :=
  .obj ([("code_name", .str p.m_code_name)]
    ++ (match propertyTypeName p.m_type with
        | some n => [("type", JVal.str n)]
        | none => [])
    ++ (match p.m_value with
        | some v => [("value", matValueToJson C v)]
        | none => []))

/-- MaterialData::ToJson. -/
def MaterialData.ToJson {D F : Type} (C : Casts D F) (data : MaterialData F) :
    List (String × JVal D) :=
  [("values", .arr (data.properties.map (propertyToJson C))),
   ("shader_asset", .str data.shader_asset)]

/-! ## MaterialProperty::WriteToMemory / GetMemorySize -/

/-- The fixed uniform stride from MaterialAsset.cpp:
`constexpr std::size_t MemorySize = sizeof(float) * 4;`. -/
def MemorySize : Nat := 4 * 4

/-- Two's-complement little-endian bytes of an s32 (what `memcpy` of an
`s32` writes). -/
def intBytes (x : Int) : List Nat := bytesOfNatLE 4 (x % (2 ^ 32 : Int)).toNat

/-- Little-endian bytes of a float's bit pattern (what `memcpy` of a
`float` writes). -/
def floatBytes {D F : Type} (C : Casts D F) (x : F) : List Nat :=
  bytesOfNatLE 4 (C.floatBits x)

/-- MaterialProperty::WriteToMemory.  Returns the bytes written at the
cursor; the cursor advance equals the length of that list (`buffer +=
MemorySize` exactly when a case fired, else no advance).  Each firing
case copies its `DataSize` raw bytes and zero-fills `MemorySize -
DataSize`.  A type with no case in the switch (TextureAsset, Undefined),
a valueless property, or a variant mismatch (`std::get_if` returning
null) writes nothing. -/
def MaterialProperty.WriteToMemory {D F : Type} (C : Casts D F) (p : MaterialProperty F) :
    List Nat :=
  match p.m_value with
  | none => []
  | some v =>
    match p.m_type with
    | .int =>
      match v with
      | .int x => intBytes x ++ List.replicate (MemorySize - 4) 0
      | _ => []
    | .int2 =>
      match v with
      | .int2 x y => intBytes x ++ intBytes y ++ List.replicate (MemorySize - 8) 0
      | _ => []
    | .int3 =>
      match v with
      | .int3 x y z => intBytes x ++ intBytes y ++ intBytes z ++ List.replicate (MemorySize - 12) 0
      | _ => []
    | .int4 =>
      match v with
      | .int4 x y z w =>
        intBytes x ++ intBytes y ++ intBytes z ++ intBytes w ++ List.replicate (MemorySize - 16) 0
      | _ => []
    | .float =>
      match v with
      | .float x => floatBytes C x ++ List.replicate (MemorySize - 4) 0
      | _ => []
    | .float2 =>
      match v with
      | .float2 x y => floatBytes C x ++ floatBytes C y ++ List.replicate (MemorySize - 8) 0
      | _ => []
    | .float3 =>
      match v with
      | .float3 x y z =>
        floatBytes C x ++ floatBytes C y ++ floatBytes C z ++ List.replicate (MemorySize - 12) 0
      | _ => []
    | .float4 =>
      match v with
      | .float4 x y z w =>
        floatBytes C x ++ floatBytes C y ++ floatBytes C z ++ floatBytes C w ++
          List.replicate (MemorySize - 16) 0
      | _ => []
    | .bool =>
      match v with
      | .bool b => [if b then 1 else 0] ++ List.replicate (MemorySize - 1) 0
      | _ => []
    | _ => []

/-- MaterialProperty::GetMemorySize. -/
def MaterialProperty.GetMemorySize {F : Type} (p : MaterialProperty F) : Nat :=
  match p.m_value with
  | none => 0
  | some _ =>
    match p.m_type with
    | .int | .int2 | .int3 | .int4 | .float | .float2 | .float3 | .float4 | .bool => MemorySize
    | _ => 0

/-! ## Spec-side helpers for the claims about the codec -/

/-- Does the variant held in a value correspond to the declared property
type?  (The data-model invariant: "exactly one case matches the owning
property's PropertyType".) -/
def matchesType {F : Type} : PropertyType → MatValue F → Bool
  | .textureAsset, .assetId _ => true
  | .int, .int _ => true
  | .int2, .int2 _ _ => true
  | .int3, .int3 _ _ _ => true
  | .int4, .int4 _ _ _ _ => true
  | .float, .float _ => true
  | .float2, .float2 _ _ => true
  | .float3, .float3 _ _ _ => true
  | .float4, .float4 _ _ _ _ => true
  | .bool, .bool _ => true
  | _, _ => false

/-- The property types whose values are 1-4 int32/float32 lanes or one
bool (i.e. everything except the texture reference and Undefined). -/
def isScalarType : PropertyType → Bool
  | .int | .int2 | .int3 | .int4 | .float | .float2 | .float3 | .float4 | .bool => true
  | _ => false

/-- The raw bytes of the value itself (the spec's "raw type's bytes",
before the zero padding). -/
def rawValueBytes {D F : Type} (C : Casts D F) : MatValue F → List Nat
  | .assetId _ => []
  | .int x => intBytes x
  | .int2 x y => intBytes x ++ intBytes y
  | .int3 x y z => intBytes x ++ intBytes y ++ intBytes z
  | .int4 x y z w => intBytes x ++ intBytes y ++ intBytes z ++ intBytes w
  | .float x => floatBytes C x
  | .float2 x y => floatBytes C x ++ floatBytes C y
  | .float3 x y z => floatBytes C x ++ floatBytes C y ++ floatBytes C z
  | .float4 x y z w => floatBytes C x ++ floatBytes C y ++ floatBytes C z ++ floatBytes C w
  | .bool b => [if b then 1 else 0]

theorem length_intBytes (x : Int) : (intBytes x).length = 4 := by
  simp [intBytes, length_bytesOfNatLE]

theorem length_floatBytes {D F : Type} (C : Casts D F) (x : F) :
    (floatBytes C x).length = 4 := by
  simp [floatBytes, length_bytesOfNatLE]

/-- C2: for a present value of a scalar/vector/bool type matching its
declared type, WriteToMemory writes the raw value bytes followed by zero
padding up to the fixed 16-byte stride, and the cursor advances by
exactly 16 bytes, independent of the element count. -/
theorem C2_write_advances_16 {D F : Type} (C : Casts D F) (p : MaterialProperty F)
    (v : MatValue F) (hv : p.m_value = some v) (hm : matchesType p.m_type v = true)
    (hs : isScalarType p.m_type = true) :
    MaterialProperty.WriteToMemory C p =
      rawValueBytes C v ++ List.replicate (16 - (rawValueBytes C v).length) 0 ∧
    (MaterialProperty.WriteToMemory C p).length = 16 := by
  obtain ⟨cn, t, val⟩ := p
  simp only at hv
  subst hv
  cases t <;> cases v <;>
    simp_all [MaterialProperty.WriteToMemory, rawValueBytes, matchesType, isScalarType,
      MemorySize, length_intBytes, length_floatBytes]

/-- Witness for C2 at concrete inputs (an int2 and a bool property). -/
theorem C2_witness :
    MaterialProperty.WriteToMemory castsId ⟨"uv_scale", .int2, some (.int2 3 (-1))⟩ =
        rawValueBytes castsId (.int2 3 (-1)) ++
          List.replicate (16 - (rawValueBytes castsId (.int2 3 (-1))).length) 0 ∧
      (MaterialProperty.WriteToMemory castsId ⟨"uv_scale", .int2, some (.int2 3 (-1))⟩).length =
        16 :=
  C2_write_advances_16 castsId ⟨"uv_scale", .int2, some (.int2 3 (-1))⟩ (.int2 3 (-1)) rfl
    (by decide) (by decide)

/-- C3: the `case Type_TextureAsset` in ParsePropertyValue has no `break`.
A material whose texture_asset property carries a JSON *number* value is
therefore NOT rejected: the value falls through to `ParseNumeric<s32, 1>`
and the whole parse succeeds, storing an s32 into the texture property.
(The spec requires any non-string texture_asset value to fail the parse.) -/
theorem C3_textureAsset_number_accepted :
    MaterialData.FromJson castsId
      [("values", .arr [.obj [("type", .str "texture_asset"), ("code_name", .str "tex"),
        ("value", .num 7)]]),
       ("shader_asset", .str "s")]
      ⟨[], ""⟩ =
    (true, ⟨[⟨"tex", .textureAsset, some (.int 7)⟩], "s"⟩) := by
  rfl

/-! ## C5: material JSON round trip -/

/-- An s32 lane is in the value range of a C++ `s32`. -/
def intInRange (x : Int) : Bool := decide (-(2 ^ 31) ≤ x) && decide (x < 2 ^ 31)

/-- Every s32 lane of the value is in s32 range (needed because the JSON
codec routes the lanes through `double`). -/
def valueIntsInRange {F : Type} : MatValue F → Bool
  | .int x => intInRange x
  | .int2 x y => intInRange x && intInRange y
  | .int3 x y z => intInRange x && intInRange y && intInRange z
  | .int4 x y z w => intInRange x && intInRange y && intInRange z && intInRange w
  | _ => true

/-- A well-formed material property: a defined type, and a present value
(if any) whose variant matches the declared type, with s32 lanes in
range. -/
def validProperty {F : Type} (p : MaterialProperty F) : Bool :=
  (p.m_type ≠ .undefined) &&
    (match p.m_value with
     | none => true
     | some v => matchesType p.m_type v && valueIntsInRange v)

def validMaterial {F : Type} (m : MaterialData F) : Bool :=
  m.properties.all validProperty

theorem lookupTypeName_canonical (t : PropertyType) (h : t ≠ PropertyType.undefined) :
    lookupTypeName (toLowerStr ((propertyTypeName t).getD "")) = some t := by
  cases t <;> first
    | exact absurd rfl h
    | decide

theorem parsePropertyValue_roundtrip {D F : Type} (C : Casts D F) (hI : IntCastLaw C)
    (hF : FloatCastLaw C) (t : PropertyType) (v : MatValue F)
    (hm : matchesType t v = true) (hr : valueIntsInRange v = true) :
    parsePropertyValue C t (matValueToJson C v) = some v := by
  have hF' : ∀ x : F, C.doubleToFloat (C.floatToDouble x) = x := hF
  cases t <;> cases v <;>
    simp_all [parsePropertyValue, parseInt1, parseFloat1, getNumArray, numsOf, getNum,
      matValueToJson, matchesType, valueIntsInRange, intInRange] <;>
    (repeat' first
      | exact hI _ (by omega) (by omega)
      | constructor)

theorem parseMaterialProperties_roundtrip {D F : Type} (C : Casts D F) (hI : IntCastLaw C)
    (hF : FloatCastLaw C) (props : List (MaterialProperty F))
    (hv : props.all validProperty = true) :
    ∀ acc, parseMaterialProperties C (props.map (propertyToJson C)) acc = (true, acc ++ props) := by
  induction props with
  | nil => intro acc; simp [parseMaterialProperties]
  | cons p rest ih =>
    intro acc
    simp only [List.all_cons, Bool.and_eq_true] at hv
    obtain ⟨hp, hrest⟩ := hv
    obtain ⟨cn, t, val⟩ := p
    simp only [validProperty, Bool.and_eq_true, decide_eq_true_eq] at hp
    obtain ⟨htu, hval⟩ := hp
    obtain ⟨n, hn⟩ : ∃ n, propertyTypeName t = some n := by
      cases t <;> first
        | exact ⟨_, rfl⟩
        | exact absurd rfl htu
    have hlook : lookupTypeName (toLowerStr n) = some t := by
      have := lookupTypeName_canonical t htu
      rwa [hn] at this
    cases hv : val with
    | none =>
      simp only [List.map_cons, parseMaterialProperties, propertyToJson, hn, hv]
      simp [jlookup, hlook, ih hrest]
    | some v =>
      subst hv
      simp only [Bool.and_eq_true] at hval
      obtain ⟨hm, hr⟩ := hval
      simp only [List.map_cons, parseMaterialProperties, propertyToJson, hn]
      simp [jlookup, hlook, parsePropertyValue_roundtrip C hI hF t v hm hr, ih hrest]

/-- C5: for every valid MaterialData m, parsing the JSON produced by
serializing m into a fresh MaterialData yields m again — property order,
types, code names, shader_asset, and values (presence and contents) are
all preserved. -/
theorem C5_material_json_roundtrip {D F : Type} (C : Casts D F) (hI : IntCastLaw C)
    (hF : FloatCastLaw C) (m : MaterialData F) (hm : validMaterial m = true) :
    MaterialData.FromJson C (MaterialData.ToJson C m) ⟨[], ""⟩ = (true, m) := by
  obtain ⟨props, sa⟩ := m
  simp only [validMaterial] at hm
  simp [MaterialData.FromJson, MaterialData.ToJson, jlookup,
    parseMaterialProperties_roundtrip C hI hF props hm []]

/-- Witness for C5 at a concrete material (an int2, a float, a valueless
texture property, and a bool). -/
theorem C5_witness :
    MaterialData.FromJson castsId
        (MaterialData.ToJson castsId
          ⟨[⟨"uv_scale", .int2, some (.int2 3 (-1))⟩, ⟨"strength", .float, some (.float 5)⟩,
            ⟨"tex", .textureAsset, none⟩, ⟨"enabled", .bool, some (.bool true)⟩], "sh"⟩)
        ⟨[], ""⟩ =
      (true,
        ⟨[⟨"uv_scale", .int2, some (.int2 3 (-1))⟩, ⟨"strength", .float, some (.float 5)⟩,
          ⟨"tex", .textureAsset, none⟩, ⟨"enabled", .bool, some (.bool true)⟩], "sh"⟩) :=
  C5_material_json_roundtrip castsId castsId_intCastLaw castsId_floatCastLaw _ (by decide)

/-! ## C7: behaviour of FromJson on failure -/

/-- Counterexample to C7 as stated: parsing a `values` array whose first
entry is a valid int property and whose second entry is not a JSON
object returns failure, yet the out-parameter MaterialData observably
carries the first parsed property — the parse is not all-or-nothing at
the FromJson interface. -/
theorem C7_counterexample :
    (MaterialData.FromJson castsId
        [("values", .arr [.obj [("type", .str "int"), ("code_name", .str "a"), ("value", .num 1)],
          .num 0]),
         ("shader_asset", .str "s")]
        ⟨[], ""⟩).1 = false ∧
      (MaterialData.FromJson castsId
        [("values", .arr [.obj [("type", .str "int"), ("code_name", .str "a"), ("value", .num 1)],
          .num 0]),
         ("shader_asset", .str "s")]
        ⟨[], ""⟩).2.properties =
        [⟨"a", .int, some (.int 1)⟩] :=
  ⟨rfl, rfl⟩

theorem parseMaterialProperties_extends {D F : Type} (C : Casts D F) (values : List (JVal D)) :
    ∀ acc : List (MaterialProperty F),
      ∃ ps, (parseMaterialProperties C values acc).2 = acc ++ ps := by
  induction values with
  | nil => intro acc; exact ⟨[], by simp [parseMaterialProperties]⟩
  | cons v rest ih =>
    intro acc
    have step : ∀ P : MaterialProperty F,
        ∃ ps, (parseMaterialProperties C rest (acc ++ [P])).2 = acc ++ ps := by
      intro P
      obtain ⟨ps, hps⟩ := ih (acc ++ [P])
      exact ⟨P :: ps, by rw [hps, List.append_assoc]; rfl⟩
    simp only [parseMaterialProperties]
    repeat' split
    all_goals first
      | (refine ⟨[], ?_⟩; simp; done)
      | exact step _

/-- C7 amended: when FromJson fails, the out-parameter's shader_asset is
untouched and its property list is the caller's list extended by the
prefix of entries parsed before the failure (so the out-parameter can
observably carry partial results; all-or-nothing behaviour only arises
because the asset loader discards the out-object of a failed load). -/
theorem C7_amended_failure_state {D F : Type} (C : Casts D F) (json : List (String × JVal D))
    (d0 : MaterialData F) (hfail : (MaterialData.FromJson C json d0).1 = false) :
    (MaterialData.FromJson C json d0).2.shader_asset = d0.shader_asset ∧
      ∃ ps, (MaterialData.FromJson C json d0).2.properties = d0.properties ++ ps := by
  unfold MaterialData.FromJson at hfail ⊢
  rcases hv : jlookup json "values" with _ | vJ
  · refine ⟨by simp [hv], [], by simp [hv]⟩
  rcases vJ with d | st | b | values | fs
  case arr =>
    obtain ⟨ps, hps⟩ := parseMaterialProperties_extends C values d0.properties
    rcases hp : parseMaterialProperties C values d0.properties with ⟨ok, props⟩
    rw [hp] at hps
    simp only at hps
    cases ok
    case false => refine ⟨by simp [hv, hp], ps, by simp [hv, hp, hps]⟩
    case true =>
      rcases hs : jlookup json "shader_asset" with _ | sJ
      · refine ⟨by simp [hv, hp, hs], ps, by simp [hv, hp, hs, hps]⟩
      rcases sJ with d | sa | b | xs | fs
      case str => simp [hv, hp, hs] at hfail
      all_goals refine ⟨by simp [hv, hp, hs], ps, by simp [hv, hp, hs, hps]⟩
  all_goals refine ⟨by simp [hv], [], by simp [hv]⟩

/-- Witness for the amended C7 at a concrete failing parse (second
`values` entry is not an object). -/
theorem C7_amended_witness :
    (MaterialData.FromJson castsId
        [("values", .arr [.obj [("type", .str "bool"), ("code_name", .str "b"),
          ("value", .boolean true)], .str "oops"])]
        ⟨[⟨"pre", .int, none⟩], "keep"⟩).2.shader_asset = "keep" ∧
      ∃ ps,
        (MaterialData.FromJson castsId
          [("values", .arr [.obj [("type", .str "bool"), ("code_name", .str "b"),
            ("value", .boolean true)], .str "oops"])]
          ⟨[⟨"pre", .int, none⟩], "keep"⟩).2.properties =
          [⟨"pre", .int, none⟩] ++ ps :=
  C7_amended_failure_state castsId _ _ (by rfl)

/-! ## Mesh data model (MeshAsset.h / NativeVertexFormat.h)

Bytes are `Nat`s; C++ `std::string`s that are memcpy'd byte-wise
(material names) are byte lists; the 16 floats of a transform are
represented by their 32-bit patterns (the binary codec only ever
memcpy's them). -/

/-- ComponentFormat from NativeVertexFormat.h.  The numeric values below
model the enum's underlying values; the binary codec only relies on the
encoding being injective. -/
inductive ComponentFormat where
  | ubyte
  | byte
  | ushort
  | short
  | float
deriving DecidableEq

def cfValue : ComponentFormat → Nat
  | .ubyte => 0
  | .byte => 1
  | .ushort => 2
  | .short => 3
  | .float => 4

def cfOfValue : Nat → ComponentFormat
  | 0 => .ubyte
  | 1 => .byte
  | 2 => .ushort
  | 3 => .short
  | _ => .float

theorem cfOfValue_cfValue (c : ComponentFormat) : cfOfValue (cfValue c) = c := by
  cases c <;> rfl

/-- AttributeFormat from NativeVertexFormat.h. -/
structure AttributeFormat where
  type : ComponentFormat
  components : Nat
  offset : Nat
  enable : Bool
  integer : Bool
deriving DecidableEq

/-- PortableVertexDeclaration from NativeVertexFormat.h: stride plus one
AttributeFormat per slot (position, 3 normals, 2 colors, 8 texcoords,
position-matrix index).  The fixed-size C++ arrays are lists whose
lengths are fixed by well-formedness. -/
structure PortableVertexDeclaration where
  stride : Nat
  position : AttributeFormat
  normals : List AttributeFormat
  colors : List AttributeFormat
  texcoords : List AttributeFormat
  posmtx : AttributeFormat
deriving DecidableEq

/-- PrimitiveType (VideoCommon).  The numeric values model the enum's
underlying u32 values; the binary codec only relies on injectivity. -/
inductive PrimitiveType where
  | points
  | lines
  | triangles
  | triangleStrip
deriving DecidableEq

def ptValue : PrimitiveType → Nat
  | .points => 0
  | .lines => 1
  | .triangles => 2
  | .triangleStrip => 3

def ptOfValue : Nat → PrimitiveType
  | 0 => .points
  | 1 => .lines
  | 2 => .triangles
  | _ => .triangleStrip

theorem ptOfValue_ptValue (p : PrimitiveType) : ptOfValue (ptValue p) = p := by
  cases p <;> rfl

structure MeshDataChunk where
  vertex_data : List Nat
  vertex_stride : Nat
  num_vertices : Nat
  indices : List Nat
  num_indices : Nat
  vertex_declaration : PortableVertexDeclaration
  primitive_type : PrimitiveType
  components_available : Nat
  transform : List Nat
  material_name : List Nat
deriving DecidableEq

structure MeshData where
  m_mesh_chunks : List MeshDataChunk
  m_mesh_material_to_material_asset_id : List (List Nat × String)
deriving DecidableEq

/-! ## Portable mesh binary codec (ToDolphinMesh / FromDolphinMesh) -/

/-- The bytes `memcpy` of one AttributeFormat produces: the enum and the
two ints as 32-bit little-endian words, the two bools as one byte each,
then two alignment padding bytes (sizeof(AttributeFormat) = 16). -/
def encodeAttributeFormat (a : AttributeFormat) : List Nat :=
  bytesOfNatLE 4 (cfValue a.type) ++ bytesOfNatLE 4 a.components ++ bytesOfNatLE 4 a.offset ++
    [if a.enable then 1 else 0] ++ [if a.integer then 1 else 0] ++ [0, 0]

def decodeAttributeFormat (bs : List Nat) : AttributeFormat × List Nat :=
  let (t, bs) := readLE 4 bs
  let (comps, bs) := readLE 4 bs
  let (off, bs) := readLE 4 bs
  let (en, bs) := readBytes 1 bs
  let (intg, bs) := readBytes 1 bs
  let (_, bs) := readBytes 2 bs
  (⟨cfOfValue t, comps, off, en ≠ [0], intg ≠ [0]⟩, bs)

def decodeAttrs : Nat → List Nat → List AttributeFormat × List Nat
  | 0, bs => ([], bs)
  | n + 1, bs =>
    let (a, bs1) := decodeAttributeFormat bs
    let (rest, bs2) := decodeAttrs n bs1
    (a :: rest, bs2)

/-- The bytes `memcpy` of a PortableVertexDeclaration produces
(sizeof = 4 + 15 * 16 bytes, fields in declaration order). -/
def encodePVD (d : PortableVertexDeclaration) : List Nat :=
  bytesOfNatLE 4 d.stride ++ encodeAttributeFormat d.position ++
    (d.normals.map encodeAttributeFormat).flatten ++
    (d.colors.map encodeAttributeFormat).flatten ++
    (d.texcoords.map encodeAttributeFormat).flatten ++
    encodeAttributeFormat d.posmtx

def decodePVD (bs : List Nat) : PortableVertexDeclaration × List Nat :=
  let (st, bs) := readLE 4 bs
  let (pos, bs) := decodeAttributeFormat bs
  let (nrm, bs) := decodeAttrs 3 bs
  let (col, bs) := decodeAttrs 2 bs
  let (tex, bs) := decodeAttrs 8 bs
  let (pm, bs) := decodeAttributeFormat bs
  (⟨st, pos, nrm, col, tex, pm⟩, bs)

/-- Read `n` consecutive `w`-byte little-endian values. -/
def readVals (w : Nat) : Nat → List Nat → List Nat × List Nat
  | 0, bs => ([], bs)
  | n + 1, bs =>
    let (v, bs1) := readLE w bs
    let (vs, bs2) := readVals w n bs1
    (v :: vs, bs2)

/-- The byte stream MeshData::ToDolphinMesh writes for one chunk. -/
def encodeChunk (c : MeshDataChunk) : List Nat :=
  bytesOfNatLE 4 c.num_vertices ++ bytesOfNatLE 4 c.vertex_stride ++ c.vertex_data ++
    bytesOfNatLE 4 c.num_indices ++ (c.indices.map (bytesOfNatLE 2)).flatten ++
    encodePVD c.vertex_declaration ++ bytesOfNatLE 4 (ptValue c.primitive_type) ++
    bytesOfNatLE 4 c.components_available ++ (c.transform.map (bytesOfNatLE 4)).flatten ++
    bytesOfNatLE 8 c.material_name.length ++ c.material_name

/-- One loop iteration of MeshData::FromDolphinMesh: read the chunk's
fields in stream order, sizing the vertex/index/name buffers from the
just-read counts. -/
def decodeChunk (bs : List Nat) : MeshDataChunk × List Nat :=
  let (nv, bs) := readLE 4 bs
  let (vs, bs) := readLE 4 bs
  let (vdata, bs) := readBytes (nv * vs) bs
  let (ni, bs) := readLE 4 bs
  let (idx, bs) := readVals 2 ni bs
  let (decl, bs) := decodePVD bs
  let (ptv, bs) := readLE 4 bs
  let (ca, bs) := readLE 4 bs
  let (tf, bs) := readVals 4 16 bs
  let (nlen, bs) := readLE 8 bs
  let (name, bs) := readBytes nlen bs
  (⟨vdata, vs, nv, idx, ni, decl, ptOfValue ptv, ca, tf, name⟩, bs)

def decodeChunks : Nat → List Nat → List MeshDataChunk
  | 0, _ => []
  | n + 1, bs =>
    let (c, bs1) := decodeChunk bs
    c :: decodeChunks n bs1

/-- MeshData::ToDolphinMesh: chunk count (size_t), then each chunk.
Note that the material-name-to-material-asset-id map is NOT written. -/
def MeshData.ToDolphinMesh (data : MeshData) : List Nat :=
  bytesOfNatLE 8 data.m_mesh_chunks.length ++ (data.m_mesh_chunks.map encodeChunk).flatten

/-- MeshData::FromDolphinMesh: reads the chunk count and pushes that many
decoded chunks into the out-parameter's chunk list; always returns true.
The material map of the out-parameter is never touched. -/
def MeshData.FromDolphinMesh (raw_data : List Nat) (data : MeshData) : Bool × MeshData :=
  let (count, bs) := readLE 8 raw_data
  (true, { data with m_mesh_chunks := data.m_mesh_chunks ++ decodeChunks count bs })

/-! ## Well-formedness of mesh data (the invariants §3 of the spec states) -/

def wfAttr (a : AttributeFormat) : Bool :=
  decide (a.components < 2 ^ 32) && decide (a.offset < 2 ^ 32)

def wfPVD (d : PortableVertexDeclaration) : Bool :=
  decide (d.stride < 2 ^ 32) && wfAttr d.position && decide (d.normals.length = 3) &&
    d.normals.all wfAttr && decide (d.colors.length = 2) && d.colors.all wfAttr &&
    decide (d.texcoords.length = 8) && d.texcoords.all wfAttr && wfAttr d.posmtx

def wfChunk (c : MeshDataChunk) : Bool :=
  decide (c.num_vertices < 2 ^ 32) && decide (c.vertex_stride < 2 ^ 32) &&
    decide (c.vertex_data.length = c.num_vertices * c.vertex_stride) &&
    decide (c.num_indices < 2 ^ 32) && decide (c.indices.length = c.num_indices) &&
    c.indices.all (fun i => decide (i < 2 ^ 16)) && wfPVD c.vertex_declaration &&
    decide (c.components_available < 2 ^ 32) && decide (c.transform.length = 16) &&
    c.transform.all (fun w => decide (w < 2 ^ 32)) && decide (c.material_name.length < 2 ^ 64)

def wfMesh (m : MeshData) : Bool :=
  decide (m.m_mesh_chunks.length < 2 ^ 64) && m.m_mesh_chunks.all wfChunk

/-! ## Round-trip lemmas for the mesh binary codec -/

theorem readBytes_one (x : Nat) (rest : List Nat) : readBytes 1 (x :: rest) = ([x], rest) := rfl

theorem readBytes_two (x y : Nat) (rest : List Nat) :
    readBytes 2 (x :: y :: rest) = ([x, y], rest) := rfl

theorem readVals_append (w : Nat) (vs : List Nat) (rest : List Nat)
    (h : ∀ v ∈ vs, v < 256 ^ w) :
    readVals w vs.length ((vs.map (bytesOfNatLE w)).flatten ++ rest) = (vs, rest) := by
  induction vs with
  | nil => simp [readVals]
  | cons v vs ih =>
    simp only [List.map_cons, List.flatten_cons, List.length_cons, readVals,
      List.append_assoc]
    rw [readLE_append w v _ (h v (by simp))]
    rw [ih (fun x hx => h x (by simp [hx]))]

theorem decodeAttributeFormat_append (a : AttributeFormat) (rest : List Nat)
    (h : wfAttr a = true) :
    decodeAttributeFormat (encodeAttributeFormat a ++ rest) = (a, rest) := by
  obtain ⟨t, comps, off, en, intg⟩ := a
  simp only [wfAttr, Bool.and_eq_true, decide_eq_true_eq] at h
  obtain ⟨h1, h2⟩ := h
  have ht : cfValue t < 256 ^ 4 := by cases t <;> norm_num [cfValue]
  simp only [encodeAttributeFormat, decodeAttributeFormat, List.append_assoc]
  rw [readLE_append 4 _ _ ht, readLE_append 4 _ _ (by norm_num at h1 ⊢; omega),
    readLE_append 4 _ _ (by norm_num at h2 ⊢; omega)]
  simp only [List.singleton_append, List.cons_append, readBytes_one, readBytes_two]
  rw [cfOfValue_cfValue]
  cases en <;> cases intg <;> simp [readBytes]

theorem decodeAttrs_append (as : List AttributeFormat) (rest : List Nat)
    (h : as.all wfAttr = true) :
    decodeAttrs as.length ((as.map encodeAttributeFormat).flatten ++ rest) = (as, rest) := by
  induction as with
  | nil => simp [decodeAttrs]
  | cons a as ih =>
    simp only [List.all_cons, Bool.and_eq_true] at h
    simp only [List.map_cons, List.flatten_cons, List.length_cons, decodeAttrs,
      List.append_assoc]
    rw [decodeAttributeFormat_append a _ h.1, ih h.2]

theorem decodePVD_append (d : PortableVertexDeclaration) (rest : List Nat)
    (h : wfPVD d = true) :
    decodePVD (encodePVD d ++ rest) = (d, rest) := by
  obtain ⟨st, pos, nrm, col, tex, pm⟩ := d
  simp only [wfPVD, Bool.and_eq_true, decide_eq_true_eq] at h
  obtain ⟨⟨⟨⟨⟨⟨⟨⟨hst, hpos⟩, hn3⟩, hna⟩, hc2⟩, hca⟩, ht8⟩, hta⟩, hpm⟩ := h
  simp only [encodePVD, decodePVD, List.append_assoc]
  rw [readLE_append 4 _ _ (by norm_num at hst ⊢; omega)]
  rw [decodeAttributeFormat_append pos _ hpos]
  rw [show (3 : Nat) = nrm.length from hn3.symm, decodeAttrs_append nrm _ hna]
  rw [show (2 : Nat) = col.length from hc2.symm, decodeAttrs_append col _ hca]
  rw [show (8 : Nat) = tex.length from ht8.symm, decodeAttrs_append tex _ hta]
  rw [decodeAttributeFormat_append pm _ hpm]

theorem decodeChunk_append (c : MeshDataChunk) (rest : List Nat) (h : wfChunk c = true) :
    decodeChunk (encodeChunk c ++ rest) = (c, rest) := by
  obtain ⟨vd, vs, nv, idx, ni, decl, pt, ca, tf, name⟩ := c
  simp only [wfChunk, Bool.and_eq_true, decide_eq_true_eq] at h
  obtain ⟨⟨⟨⟨⟨⟨⟨⟨⟨⟨hnv, hvs⟩, hvd⟩, hni⟩, hil⟩, hiv⟩, hdecl⟩, hca⟩, htl⟩, htv⟩, hnl⟩ := h
  simp only [List.all_eq_true, decide_eq_true_eq] at hiv htv
  have hpt : ptValue pt < 256 ^ 4 := by cases pt <;> norm_num [ptValue]
  simp only [encodeChunk, decodeChunk, List.append_assoc]
  rw [readLE_append 4 _ _ (by norm_num at hnv ⊢; omega)]
  rw [readLE_append 4 _ _ (by norm_num at hvs ⊢; omega)]
  rw [show nv * vs = vd.length by omega]
  rw [readBytes_append vd]
  rw [readLE_append 4 _ _ (by norm_num at hni ⊢; omega)]
  rw [show ni = idx.length from hil.symm]
  rw [readVals_append 2 idx _ (fun v hv => by have := hiv v hv; norm_num; omega)]
  rw [decodePVD_append decl _ hdecl]
  rw [readLE_append 4 _ _ hpt]
  rw [readLE_append 4 _ _ (by norm_num at hca ⊢; omega)]
  rw [show (16 : Nat) = tf.length from htl.symm]
  rw [readVals_append 4 tf _ (fun v hv => by have := htv v hv; norm_num; omega)]
  rw [readLE_append 8 _ _ (by norm_num at hnl ⊢; omega)]
  rw [readBytes_append name]
  rw [ptOfValue_ptValue]

theorem decodeChunks_append (cs : List MeshDataChunk) (rest : List Nat)
    (h : cs.all wfChunk = true) :
    decodeChunks cs.length ((cs.map encodeChunk).flatten ++ rest) = cs := by
  induction cs with
  | nil => simp [decodeChunks]
  | cons c cs ih =>
    simp only [List.all_cons, Bool.and_eq_true] at h
    simp only [List.map_cons, List.flatten_cons, List.length_cons, decodeChunks,
      List.append_assoc]
    rw [decodeChunk_append c _ h.1, ih h.2]

/-- Counterexample to C1 as stated: the portable mesh binary does not
contain the material-name-to-material-asset-id mapping.  Serializing a
MeshData whose mapping is non-empty and deserializing into a fresh
MeshData yields an empty mapping, so the round trip is not the identity
on the full MeshData. -/
theorem C1_counterexample :
    MeshData.FromDolphinMesh
        (MeshData.ToDolphinMesh ⟨[], [([119, 111, 111, 100], "asset123")]⟩) ⟨[], []⟩ =
      (true, ⟨[], []⟩) ∧
      (⟨[], []⟩ : MeshData) ≠ ⟨[], [([119, 111, 111, 100], "asset123")]⟩ := by
  constructor
  · rfl
  · intro hcontra
    simp at hcontra

/-- C1 amended: FromDolphinMesh(ToDolphinMesh(m)) restores the chunk list
field-for-field — vertex data, strides, counts, indices, the entire
vertex declaration, primitive type, component mask, transform, material
name — for every well-formed MeshData, returning true; the
material-name-to-material-asset-id mapping, however, is not part of the
stream: the out-parameter's mapping is left exactly as it was (the
importer initializes it empty). -/
theorem C1_mesh_binary_roundtrip (m : MeshData) (mp : List (List Nat × String))
    (h : wfMesh m = true) :
    MeshData.FromDolphinMesh (MeshData.ToDolphinMesh m) ⟨[], mp⟩ =
      (true, ⟨m.m_mesh_chunks, mp⟩) := by
  obtain ⟨chunks, _⟩ := m
  simp only [wfMesh, Bool.and_eq_true, decide_eq_true_eq] at h
  obtain ⟨hlen, hwf⟩ := h
  simp only [MeshData.ToDolphinMesh, MeshData.FromDolphinMesh]
  rw [readLE_append 8 _ _ (by norm_num at hlen ⊢; omega)]
  have := decodeChunks_append chunks [] hwf
  simp only [List.append_nil] at this
  simp [this]

/-- Witness for the amended C1: a one-chunk mesh (one vertex, one index,
a full declaration) restored exactly; the destination's mapping is kept. -/
theorem C1_mesh_binary_roundtrip_witness :
    MeshData.FromDolphinMesh
        (MeshData.ToDolphinMesh
          ⟨[⟨[1, 2, 3, 4], 4, 1, [0], 1,
            ⟨4, ⟨.float, 3, 0, true, false⟩,
              [⟨.float, 3, 0, false, false⟩, ⟨.float, 3, 0, false, false⟩,
                ⟨.float, 3, 0, false, false⟩],
              [⟨.ubyte, 4, 0, false, false⟩, ⟨.ubyte, 4, 0, false, false⟩],
              [⟨.float, 2, 0, false, false⟩, ⟨.float, 2, 0, false, false⟩,
                ⟨.float, 2, 0, false, false⟩, ⟨.float, 2, 0, false, false⟩,
                ⟨.float, 2, 0, false, false⟩, ⟨.float, 2, 0, false, false⟩,
                ⟨.float, 2, 0, false, false⟩, ⟨.float, 2, 0, false, false⟩],
              ⟨.ubyte, 1, 0, false, false⟩⟩,
            .triangles, 0, [0, 0, 0, 0, 0, 0, 0, 0, 0, 0, 0, 0, 0, 0, 0, 0],
            [109, 97, 116]⟩], []⟩)
        ⟨[], [([109, 97, 116], "asset1")]⟩ =
      (true,
        ⟨[⟨[1, 2, 3, 4], 4, 1, [0], 1,
          ⟨4, ⟨.float, 3, 0, true, false⟩,
            [⟨.float, 3, 0, false, false⟩, ⟨.float, 3, 0, false, false⟩,
              ⟨.float, 3, 0, false, false⟩],
            [⟨.ubyte, 4, 0, false, false⟩, ⟨.ubyte, 4, 0, false, false⟩],
            [⟨.float, 2, 0, false, false⟩, ⟨.float, 2, 0, false, false⟩,
              ⟨.float, 2, 0, false, false⟩, ⟨.float, 2, 0, false, false⟩,
              ⟨.float, 2, 0, false, false⟩, ⟨.float, 2, 0, false, false⟩,
              ⟨.float, 2, 0, false, false⟩, ⟨.float, 2, 0, false, false⟩],
            ⟨.ubyte, 1, 0, false, false⟩⟩,
          .triangles, 0, [0, 0, 0, 0, 0, 0, 0, 0, 0, 0, 0, 0, 0, 0, 0, 0],
          [109, 97, 116]⟩], [([109, 97, 116], "asset1")]⟩) :=
  C1_mesh_binary_roundtrip _ _ (by decide)

/-! ## glTF importer model (MeshAsset.cpp anonymous namespace + tinygltf)

The tinygltf structures carry exactly the fields ReadGLTFMesh reads.
All `std::vector` indexing is modelled with `getD` and a default (the
C++ indexes in-bounds for well-formed models).  Floating-point matrix
arithmetic (BuildMatrixFromNode, Matrix44 multiplication) is abstracted:
transforms are opaque 16-entry lists of 32-bit float patterns, and the
node walk takes the build/multiply functions as parameters. -/

namespace tinygltf

structure Accessor where
  bufferView : Nat
  byteOffset : Nat
  componentType : Nat
  count : Nat
  type : Nat
deriving DecidableEq

structure BufferView where
  buffer : Nat
  byteOffset : Nat
  byteStride : Nat
deriving DecidableEq

structure Buffer where
  data : List Nat
deriving DecidableEq

/-- One glTF primitive; `attributes` is a `std::map<std::string, int>`
(association list looked up by key). -/
structure Primitive where
  indices : Int
  material : Int
  mode : Nat
  attributes : List (String × Nat)
deriving DecidableEq

structure Mesh where
  primitives : List Primitive
deriving DecidableEq

structure Node where
  mesh : Int
  children : List Nat
deriving DecidableEq

structure Material where
  name : List Nat
deriving DecidableEq

structure Scene where
  nodes : List Nat
deriving DecidableEq

structure Model where
  accessors : List Accessor
  bufferViews : List BufferView
  buffers : List Buffer
  meshes : List Mesh
  nodes : List Node
  materials : List Material
  scenes : List Scene
  defaultScene : Int
deriving DecidableEq

end tinygltf

/-- tinygltf component-type constants. -/
def TINYGLTF_COMPONENT_TYPE_BYTE : Nat := 5120
def TINYGLTF_COMPONENT_TYPE_UNSIGNED_BYTE : Nat := 5121
def TINYGLTF_COMPONENT_TYPE_SHORT : Nat := 5122
def TINYGLTF_COMPONENT_TYPE_UNSIGNED_SHORT : Nat := 5123
def TINYGLTF_COMPONENT_TYPE_INT : Nat := 5124
def TINYGLTF_COMPONENT_TYPE_UNSIGNED_INT : Nat := 5125
def TINYGLTF_COMPONENT_TYPE_FLOAT : Nat := 5126
def TINYGLTF_COMPONENT_TYPE_DOUBLE : Nat := 5130

/-- tinygltf type constants (SCALAR = 64+1, VEC2/3/4, MAT2/3/4 = 32+n). -/
def TINYGLTF_TYPE_VEC2 : Nat := 2
def TINYGLTF_TYPE_VEC3 : Nat := 3
def TINYGLTF_TYPE_VEC4 : Nat := 4
def TINYGLTF_TYPE_MAT2 : Nat := 34
def TINYGLTF_TYPE_MAT3 : Nat := 35
def TINYGLTF_TYPE_MAT4 : Nat := 36
def TINYGLTF_TYPE_SCALAR : Nat := 65

/-- tinygltf mode constants. -/
def TINYGLTF_MODE_POINTS : Nat := 0
def TINYGLTF_MODE_LINE : Nat := 1
def TINYGLTF_MODE_TRIANGLES : Nat := 4
def TINYGLTF_MODE_TRIANGLE_STRIP : Nat := 5
def TINYGLTF_MODE_TRIANGLE_FAN : Nat := 6

/-- tinygltf::GetNumComponentsInType (`none` models the -1 error value). -/
def GetNumComponentsInType (ty : Nat) : Option Nat :=
  if ty = TINYGLTF_TYPE_SCALAR then some 1
  else if ty = TINYGLTF_TYPE_VEC2 then some 2
  else if ty = TINYGLTF_TYPE_VEC3 then some 3
  else if ty = TINYGLTF_TYPE_VEC4 then some 4
  else if ty = TINYGLTF_TYPE_MAT2 then some 4
  else if ty = TINYGLTF_TYPE_MAT3 then some 9
  else if ty = TINYGLTF_TYPE_MAT4 then some 16
  else none

/-- tinygltf::GetComponentSizeInBytes (`none` models the -1 error value). -/
def GetComponentSizeInBytes (ct : Nat) : Option Nat :=
  if ct = TINYGLTF_COMPONENT_TYPE_BYTE then some 1
  else if ct = TINYGLTF_COMPONENT_TYPE_UNSIGNED_BYTE then some 1
  else if ct = TINYGLTF_COMPONENT_TYPE_SHORT then some 2
  else if ct = TINYGLTF_COMPONENT_TYPE_UNSIGNED_SHORT then some 2
  else if ct = TINYGLTF_COMPONENT_TYPE_INT then some 4
  else if ct = TINYGLTF_COMPONENT_TYPE_UNSIGNED_INT then some 4
  else if ct = TINYGLTF_COMPONENT_TYPE_FLOAT then some 4
  else if ct = TINYGLTF_COMPONENT_TYPE_DOUBLE then some 8
  else none

/-- tinygltf::Accessor::ByteStride (`none` models the -1 error value). -/
def tinygltf.Accessor.ByteStride (a : tinygltf.Accessor) (bv : tinygltf.BufferView) :
    Option Nat :=
  if bv.byteStride = 0 then
    match GetComponentSizeInBytes a.componentType with
    | none => none
    | some cs =>
      match GetNumComponentsInType a.type with
      | none => none
      | some cc => some (cs * cc)
  else
    match GetComponentSizeInBytes a.componentType with
    | none => none
    | some cs => if bv.byteStride % cs ≠ 0 then none else some bv.byteStride

/-- `std::map<std::string, int>::find` on a primitive's attribute map. -/
def attrFind (attrs : List (String × Nat)) (key : String) : Option Nat :=
  match attrs with
  | [] => none
  | (k, v) :: rest => if k = key then some v else attrFind rest key

/-- Component flags from VideoCommon/NativeVertexFormat.h.  The claims
below do not depend on the specific numeric values. -/
def VB_HAS_NORMAL : Nat := 2 ^ 10
def VB_HAS_COL0 : Nat := 2 ^ 13
def VB_HAS_UV0 : Nat := 2 ^ 15

/-- The value of a default-initialized AttributeFormat slot.  In C++
these fields are indeterminate until assigned; the claims below never
inspect a field the code leaves unassigned. -/
def defaultAttr : AttributeFormat := ⟨.ubyte, 0, 0, false, false⟩

def defaultAccessor : tinygltf.Accessor := ⟨0, 0, 0, 0, 0⟩

/-- GLTFComponentTypeToAttributeFormat: updates `type`/`integer` on the
given format, `none` for the unsupported double / unsigned-int cases
(C++ returns false).  A component type with no case in the switch
returns true without touching the format. -/
def GLTFComponentTypeToAttributeFormat (component_type : Nat) (format : AttributeFormat) :
    Option AttributeFormat :=
  if component_type = TINYGLTF_COMPONENT_TYPE_BYTE then
    some { format with type := .byte, integer := false }
  else if component_type = TINYGLTF_COMPONENT_TYPE_DOUBLE then none
  else if component_type = TINYGLTF_COMPONENT_TYPE_FLOAT then
    some { format with type := .float, integer := false }
  else if component_type = TINYGLTF_COMPONENT_TYPE_INT then
    some { format with type := .float, integer := true }
  else if component_type = TINYGLTF_COMPONENT_TYPE_SHORT then
    some { format with type := .short, integer := false }
  else if component_type = TINYGLTF_COMPONENT_TYPE_UNSIGNED_BYTE then
    some { format with type := .ubyte, integer := false }
  else if component_type = TINYGLTF_COMPONENT_TYPE_UNSIGNED_INT then none
  else if component_type = TINYGLTF_COMPONENT_TYPE_UNSIGNED_SHORT then
    some { format with type := .ushort, integer := false }
  else some format

/-- The byte contribution of one accessor (component size × component
count, or 0 when either is invalid — the C++ TODO-error paths add or
copy nothing in that case). -/
def accessorSize (model : tinygltf.Model) (accessor_index : Nat) : Nat :=
  let accessor := model.accessors.getD accessor_index defaultAccessor
  match GetNumComponentsInType accessor.type with
  | none => 0
  | some cc =>
    match GetComponentSizeInBytes accessor.componentType with
    | none => 0
    | some cs => cs * cc

/-- UpdateVertexStrideFromPrimitive: adds the accessor's byte size to the
running stride (nothing on the TODO-error paths). -/
def UpdateVertexStrideFromPrimitive (model : tinygltf.Model) (accessor_index : Nat)
    (vertex_stride : Nat) : Nat :=
  vertex_stride + accessorSize model accessor_index

/-- Overwrite `src.length` bytes of `dst` starting at `pos` (memcpy into
the vertex buffer; in-bounds for well-formed models). -/
def writeBytesAt (dst : List Nat) (pos : Nat) (src : List Nat) : List Nat :=
  dst.take pos ++ src ++ dst.drop (pos + src.length)

/-- CopyBufferDataFromPrimitive: for each vertex, memcpy the accessor's
element bytes to `i * vertex_stride + outbound_offset`; the source
element `i` sits at `i * (cs * cc)` for tightly packed data and at
`i * byteStride` for interleaved data (the two C++ branches differ only
in that source stride).  Returns the updated buffer and the advanced
outbound offset; the TODO-error paths return both unchanged. -/
def CopyBufferDataFromPrimitive (model : tinygltf.Model) (accessor_index : Nat)
    (outbound_offset : Nat) (vertex_stride : Nat) (vertex_data : List Nat) :
    Nat × List Nat :=
  let accessor := model.accessors.getD accessor_index defaultAccessor
  match GetNumComponentsInType accessor.type with
  | none => (outbound_offset, vertex_data)
  | some cc =>
    match GetComponentSizeInBytes accessor.componentType with
    | none => (outbound_offset, vertex_data)
    | some cs =>
      let bv := model.bufferViews.getD accessor.bufferView ⟨0, 0, 0⟩
      let buf := model.buffers.getD bv.buffer ⟨[]⟩
      let base := accessor.byteOffset + bv.byteOffset
      let srcStride := if bv.byteStride = 0 then cs * cc else bv.byteStride
      let vertex_data :=
        (List.range accessor.count).foldl
          (fun vd i =>
            writeBytesAt vd (i * vertex_stride + outbound_offset)
              ((buf.data.drop (base + i * srcStride)).take (cs * cc)))
          vertex_data
      (outbound_offset + cs * cc, vertex_data)

/-- One iteration of the index-conversion loop in ReadGLTFMesh: the
stored u16 for element `i`.  16-bit sources are read as is, 8-bit
sources widen, 32-bit sources are truncated by `static_cast<u16>`
(modulo 2^16); any other component type leaves the zero-initialized
value in place. -/
def readIndexAt (componentType : Nat) (data : List Nat) (base stride i : Nat) : Nat :=
  if componentType = TINYGLTF_COMPONENT_TYPE_UNSIGNED_SHORT then
    natOfBytesLE ((data.drop (base + i * stride)).take 2)
  else if componentType = TINYGLTF_COMPONENT_TYPE_UNSIGNED_BYTE then
    (data.drop (base + i * stride)).headD 0
  else if componentType = TINYGLTF_COMPONENT_TYPE_UNSIGNED_INT then
    natOfBytesLE ((data.drop (base + i * stride)).take 4) % 2 ^ 16
  else 0

/-- The full index array ReadGLTFMesh builds for one primitive. -/
def readIndices (componentType : Nat) (data : List Nat) (base stride count : Nat) : List Nat :=
  (List.range count).map (readIndexAt componentType data base stride)

/-- One color/normal/texcoord slot of the attribute-copy pass of
ReadGLTFMesh: when the attribute is present, record the current outbound
offset, copy the data (advancing the offset), or the component flag in,
and resolve the component format (`none` aborts the primitive); when
absent, the slot is disabled.  The state is (outbound offset, vertex
buffer, components_available). -/
def copyAttrSlot (model : tinygltf.Model) (prim : tinygltf.Primitive) (name : String)
    (comps : Nat) (flag : Nat) (vertex_stride : Nat) (st : Nat × List Nat × Nat) :
    Option ((Nat × List Nat × Nat) × AttributeFormat) :=
  match attrFind prim.attributes name with
  | none => some (st, { defaultAttr with enable := false })
  | some idx =>
    let attr0 : AttributeFormat :=
      { defaultAttr with offset := st.1, enable := true, components := comps }
    let (ob, vd) := CopyBufferDataFromPrimitive model idx st.1 vertex_stride st.2.1
    let ca := st.2.2 ||| flag
    let accessor := model.accessors.getD idx defaultAccessor
    match GLTFComponentTypeToAttributeFormat accessor.componentType attr0 with
    | none => none
    | some attr => some ((ob, vd, ca), attr)

/-- The copy pass over a list of same-shaped slots (the C++ for-loops
over color_names / texcoord_names). -/
def copySlots (model : tinygltf.Model) (prim : tinygltf.Primitive) (comps : Nat)
    (vertex_stride : Nat) :
    List (String × Nat) → Nat × List Nat × Nat →
      Option ((Nat × List Nat × Nat) × List AttributeFormat)
  | [], st => some (st, [])
  | (name, flag) :: rest, st =>
    match copyAttrSlot model prim name comps flag vertex_stride st with
    | none => none
    | some (st1, attr) =>
      match copySlots model prim comps vertex_stride rest st1 with
      | none => none
      | some (st2, attrs) => some (st2, attr :: attrs)

/-- The fixed attribute scan list of the vertex-stride pass. -/
def all_names : List String :=
  ["POSITION", "NORMAL", "COLOR_0", "COLOR_1", "TEXCOORD_0", "TEXCOORD_1", "TEXCOORD_2",
   "TEXCOORD_3", "TEXCOORD_4", "TEXCOORD_5", "TEXCOORD_6", "TEXCOORD_7"]

/-- The color slots of the copy pass, with their component flags. -/
def color_specs : List (String × Nat) :=
  [("COLOR_0", VB_HAS_COL0), ("COLOR_1", VB_HAS_COL0 * 2)]

/-- The texcoord slots of the copy pass, with their component flags. -/
def texcoord_specs : List (String × Nat) :=
  [("TEXCOORD_0", VB_HAS_UV0), ("TEXCOORD_1", VB_HAS_UV0 * 2), ("TEXCOORD_2", VB_HAS_UV0 * 4),
   ("TEXCOORD_3", VB_HAS_UV0 * 8), ("TEXCOORD_4", VB_HAS_UV0 * 16),
   ("TEXCOORD_5", VB_HAS_UV0 * 32), ("TEXCOORD_6", VB_HAS_UV0 * 64),
   ("TEXCOORD_7", VB_HAS_UV0 * 128)]

/-- The per-primitive body of ReadGLTFMesh.  `none` models the early
`return` paths (missing indices, invalid index stride, fan topology,
missing POSITION, invalid attribute format); in those cases the chunk
under construction is discarded and the remaining primitives of the
mesh are never visited. -/
def processPrimitive (model : tinygltf.Model) (primitive : tinygltf.Primitive)
    (mat : List Nat) : Option MeshDataChunk :=
  if primitive.indices = -1 then none
  else
    let material_name := (model.materials.getD primitive.material.toNat ⟨[]⟩).name
    let index_accessor := model.accessors.getD primitive.indices.toNat defaultAccessor
    let index_buffer_view := model.bufferViews.getD index_accessor.bufferView ⟨0, 0, 0⟩
    let index_buffer := model.buffers.getD index_buffer_view.buffer ⟨[]⟩
    match index_accessor.ByteStride index_buffer_view with
    | none => none
    | some index_stride =>
      let indices := readIndices index_accessor.componentType index_buffer.data
        (index_accessor.byteOffset + index_buffer_view.byteOffset) index_stride
        index_accessor.count
      let num_indices := index_accessor.count
      if primitive.mode = TINYGLTF_MODE_TRIANGLE_FAN then none
      else
        -- modes without a case in the C++ if-chain leave primitive_type
        -- uninitialized; the model picks an arbitrary value for them
        let primitive_type :=
          if primitive.mode = TINYGLTF_MODE_TRIANGLES then PrimitiveType.triangles
          else if primitive.mode = TINYGLTF_MODE_TRIANGLE_STRIP then PrimitiveType.triangleStrip
          else if primitive.mode = TINYGLTF_MODE_LINE then PrimitiveType.lines
          else if primitive.mode = TINYGLTF_MODE_POINTS then PrimitiveType.points
          else PrimitiveType.points
        let vertex_stride := all_names.foldl
          (fun stride name =>
            match attrFind primitive.attributes name with
            | none => stride
            | some idx => UpdateVertexStrideFromPrimitive model idx stride)
          0
        match attrFind primitive.attributes "POSITION" with
        | none => none
        | some posIdx =>
          let pos_accessor := model.accessors.getD posIdx defaultAccessor
          let num_vertices := pos_accessor.count
          let vertex_data0 := List.replicate (num_vertices * vertex_stride) 0
          let (outbound1, vertex_data1) :=
            CopyBufferDataFromPrimitive model posIdx 0 vertex_stride vertex_data0
          let posAttr0 : AttributeFormat :=
            { defaultAttr with enable := true, components := 3, offset := 0 }
          match GLTFComponentTypeToAttributeFormat pos_accessor.componentType posAttr0 with
          | none => none
          | some posAttr =>
            match copySlots model primitive 3 vertex_stride color_specs
              (outbound1, vertex_data1, 0) with
            | none => none
            | some ((ob2, vd2, ca2), colorAttrs) =>
              match copyAttrSlot model primitive "NORMAL" 3 VB_HAS_NORMAL vertex_stride
                (ob2, vd2, ca2) with
              | none => none
              | some ((ob3, vd3, ca3), normalAttr) =>
                match copySlots model primitive 2 vertex_stride texcoord_specs
                  (ob3, vd3, ca3) with
                | none => none
                | some ((_, vd4, ca4), texAttrs) =>
                  some
                    { vertex_data := vd4
                      vertex_stride := vertex_stride
                      num_vertices := num_vertices
                      indices := indices
                      num_indices := num_indices
                      vertex_declaration :=
                        { stride := vertex_stride
                          position := posAttr
                          normals := [normalAttr, defaultAttr, defaultAttr]
                          colors := colorAttrs
                          texcoords := texAttrs
                          posmtx := { defaultAttr with enable := false } }
                      primitive_type := primitive_type
                      components_available := ca4
                      transform := mat
                      material_name := material_name }

/-- The primitive loop of ReadGLTFMesh: an early return keeps the chunks
already pushed and drops the remaining primitives. -/
def readGLTFMeshAux (model : tinygltf.Model) :
    List tinygltf.Primitive → List Nat → MeshData → MeshData
  | [], _, data => data
  | p :: rest, mat, data =>
    match processPrimitive model p mat with
    | none => data
    | some chunk =>
      readGLTFMeshAux model rest mat
        { data with m_mesh_chunks := data.m_mesh_chunks ++ [chunk] }

def ReadGLTFMesh (model : tinygltf.Model) (mesh : tinygltf.Mesh) (mat : List Nat)
    (data : MeshData) : MeshData :=
  readGLTFMeshAux model mesh.primitives mat data

/-- ReadGLTFNodes: import the node's mesh (if any) under the accumulated
transform, then recurse into the children with `parent * child` matrices.
`mmul` and `buildMat` abstract the floating-point Matrix44 arithmetic of
`operator*` and BuildMatrixFromNode; `fuel` bounds the recursion depth
(glTF node graphs are forests, so `model.nodes.length + 1` suffices and
mirrors the C++ termination behaviour on real scenes). -/
def ReadGLTFNodes (mmul : List Nat → List Nat → List Nat)
    (buildMat : tinygltf.Node → List Nat) (model : tinygltf.Model) :
    Nat → tinygltf.Node → List Nat → MeshData → MeshData
  | 0, _, _, data => data
  | fuel + 1, node, mat, data =>
    let data :=
      if node.mesh ≠ -1 then
        ReadGLTFMesh model (model.meshes.getD node.mesh.toNat ⟨[]⟩) mat data
      else data
    node.children.foldl
      (fun data childIdx =>
        let child := model.nodes.getD childIdx ⟨-1, []⟩
        ReadGLTFNodes mmul buildMat model fuel child (mmul mat (buildMat child)) data)
      data

/-- `std::map::operator[] = v` on the material-name map. -/
def mapAssign (m : List (List Nat × String)) (k : List Nat) (v : String) :
    List (List Nat × String) :=
  match m with
  | [] => [(k, v)]
  | (k0, v0) :: rest => if k0 = k then (k0, v) :: rest else (k0, v0) :: mapAssign rest k v

/-- ReadGLTFMaterials: maps every scene material name to the empty asset
id (deferred resolution). -/
def ReadGLTFMaterials (model : tinygltf.Model) (data : MeshData) : MeshData :=
  { data with
    m_mesh_material_to_material_asset_id :=
      model.materials.foldl (fun m material => mapAssign m material.name "")
        data.m_mesh_material_to_material_asset_id }

/-- ReadGLTF: pick the default (or first) scene, walk its root nodes,
then collect the material names. -/
def ReadGLTF (mmul : List Nat → List Nat → List Nat)
    (buildMat : tinygltf.Node → List Nat) (model : tinygltf.Model) (data : MeshData) :
    MeshData :=
  let scene_index := if model.defaultScene = -1 then 0 else model.defaultScene.toNat
  let scene := model.scenes.getD scene_index ⟨[]⟩
  let data := scene.nodes.foldl
    (fun data ni =>
      let node := model.nodes.getD ni ⟨-1, []⟩
      ReadGLTFNodes mmul buildMat model (model.nodes.length + 1) node (buildMat node) data)
    data
  ReadGLTFMaterials model data

/-- `std::string_view::ends_with`. -/
def strEndsWith (s suff : List Char) : Bool :=
  decide (suff.length ≤ s.length) && decide (s.drop (s.length - suff.length) = suff)

/-- MeshData::FromGLTF.  `loaded` models the result of the external
tinygltf `LoadASCIIFromFile` call: `none` when the loader rejects the
file.  Binary `.glb` input and unknown extensions fail outright; once
the loader succeeds, ReadGLTF runs and the call returns true. -/
def MeshData.FromGLTF (mmul : List Nat → List Nat → List Nat)
    (buildMat : tinygltf.Node → List Nat) (gltf_file : List Char)
    (loaded : Option tinygltf.Model) (data : MeshData) : Bool × MeshData :=
  if strEndsWith gltf_file (String.toList ".glb") then (false, data)
  else if strEndsWith gltf_file (String.toList ".gltf") then
    match loaded with
    | none => (false, data)
    | some model => (true, ReadGLTF mmul buildMat model data)
  else (false, data)

theorem not_glb_of_gltf (s : List Char) (h : strEndsWith s (String.toList ".gltf") = true) :
    strEndsWith s (String.toList ".glb") = false := by
  have hf5 : String.toList ".gltf" = ['.', 'g', 'l', 't', 'f'] := rfl
  have hb4 : String.toList ".glb" = ['.', 'g', 'l', 'b'] := rfl
  rw [hf5] at h
  rw [hb4]
  simp only [strEndsWith, Bool.and_eq_true, decide_eq_true_eq] at h
  obtain ⟨hlen, hdrop⟩ := h
  cases hx : strEndsWith s ['.', 'g', 'l', 'b'] with
  | false => rfl
  | true =>
  exfalso
  simp only [strEndsWith, Bool.and_eq_true, decide_eq_true_eq] at hx
  obtain ⟨hlen2, hdrop2⟩ := hx
  have hlen' : 5 ≤ s.length := by simpa using hlen
  have hf : s.drop (s.length - 1) = ['f'] := by
    have h2 := congrArg (List.drop 4) hdrop
    rw [List.drop_drop] at h2
    have harith : s.length - ['.', 'g', 'l', 't', 'f'].length + 4 = s.length - 1 := by
      simp only [List.length_cons, List.length_nil]
      omega
    rw [harith] at h2
    simpa using h2
  have hb : s.drop (s.length - 1) = ['b'] := by
    have h2 := congrArg (List.drop 3) hdrop2
    rw [List.drop_drop] at h2
    have harith : s.length - ['.', 'g', 'l', 'b'].length + 3 = s.length - 1 := by
      simp only [List.length_cons, List.length_nil]
      omega
    rw [harith] at h2
    simpa using h2
  rw [hf] at hb
  simp at hb

/-! ## C9: 32-bit index truncation -/

theorem readIndices_nil (ct : Nat) (data : List Nat) (base stride : Nat) :
    readIndices ct data base stride 0 = [] := rfl

/-- C9: when the index accessor's component type is unsigned int, every
index value stored by the importer's index loop is the source's 32-bit
value reduced modulo 2^16 (the `static_cast<u16>` truncation), for a
tightly packed buffer of 32-bit little-endian values. -/
theorem C9_u32_index_truncation (vs : List Nat) (h : ∀ v ∈ vs, v < 2 ^ 32) :
    readIndices TINYGLTF_COMPONENT_TYPE_UNSIGNED_INT ((vs.map (bytesOfNatLE 4)).flatten) 0 4
      vs.length = vs.map (fun v => v % 2 ^ 16) := by
  induction vs with
  | nil => rfl
  | cons v vs ih =>
    have hv : v < 2 ^ 32 := h v (by simp)
    have hvs : ∀ w ∈ vs, w < 2 ^ 32 := fun w hw => h w (by simp [hw])
    simp only [List.map_cons, List.flatten_cons, List.length_cons]
    rw [readIndices, List.range_succ_eq_map, List.map_cons, List.map_map]
    have hzero :
        readIndexAt TINYGLTF_COMPONENT_TYPE_UNSIGNED_INT
          (bytesOfNatLE 4 v ++ (vs.map (bytesOfNatLE 4)).flatten) 0 4 0 = v % 2 ^ 16 := by
      simp only [readIndexAt, TINYGLTF_COMPONENT_TYPE_UNSIGNED_INT,
        TINYGLTF_COMPONENT_TYPE_UNSIGNED_SHORT, TINYGLTF_COMPONENT_TYPE_UNSIGNED_BYTE]
      norm_num
      have htake : List.take 4 (bytesOfNatLE 4 v ++ (vs.map (bytesOfNatLE 4)).flatten) =
          bytesOfNatLE 4 v := by
        rw [List.take_append_of_le_length (by simp [length_bytesOfNatLE]),
          List.take_of_length_le (by simp [length_bytesOfNatLE])]
      rw [htake, natOfBytesLE_bytesOfNatLE 4 v (by norm_num at hv ⊢; omega)]
    have hsucc : ∀ i : Nat,
        readIndexAt TINYGLTF_COMPONENT_TYPE_UNSIGNED_INT
            (bytesOfNatLE 4 v ++ (vs.map (bytesOfNatLE 4)).flatten) 0 4 (i + 1) =
          readIndexAt TINYGLTF_COMPONENT_TYPE_UNSIGNED_INT
            ((vs.map (bytesOfNatLE 4)).flatten) 0 4 i := by
      intro i
      have hdrop : List.drop (0 + (i + 1) * 4)
          (bytesOfNatLE 4 v ++ (vs.map (bytesOfNatLE 4)).flatten) =
          List.drop (0 + i * 4) ((vs.map (bytesOfNatLE 4)).flatten) := by
        have h1 : 0 + (i + 1) * 4 = (bytesOfNatLE 4 v).length + (0 + i * 4) := by
          simp [length_bytesOfNatLE]; ring
        rw [h1, ← List.drop_drop, List.drop_left]
      simp only [readIndexAt, hdrop]
    simp only [Function.comp_def, Nat.succ_eq_add_one, hzero, hsucc]
    have hfold :
        List.map
            (fun i => readIndexAt TINYGLTF_COMPONENT_TYPE_UNSIGNED_INT
              ((vs.map (bytesOfNatLE 4)).flatten) 0 4 i) (List.range vs.length) =
          readIndices TINYGLTF_COMPONENT_TYPE_UNSIGNED_INT ((vs.map (bytesOfNatLE 4)).flatten)
            0 4 vs.length := rfl
    rw [hfold, ih hvs]

/-- Witness for C9: the spec's concrete scenario — a source index of
70000 stored through the unsigned-int path becomes 4464. -/
theorem C9_witness :
    readIndices TINYGLTF_COMPONENT_TYPE_UNSIGNED_INT
      (([70000].map (bytesOfNatLE 4)).flatten) 0 4 1 = [4464] := by
  have h := C9_u32_index_truncation [70000] (by decide)
  simpa using h

/-! ## C10: FromGLTF reports success despite rejected primitives -/

/-- C10: (a) for any `.gltf` file whose external load succeeds, FromGLTF
runs the traversal and returns true — the traversal itself cannot fail
the call; (b) when a primitive of a mesh is rejected (here: by any early
return, e.g. missing indices making processPrimitive fail), the chunks
of the previously accepted primitives are kept and the mesh's remaining
primitives are silently dropped. -/
theorem C10_fromGLTF_success_despite_rejection :
    (∀ (mmul : List Nat → List Nat → List Nat) (buildMat : tinygltf.Node → List Nat)
        (gltf_file : List Char) (model : tinygltf.Model) (d : MeshData),
        strEndsWith gltf_file (String.toList ".gltf") = true →
        MeshData.FromGLTF mmul buildMat gltf_file (some model) d =
          (true, ReadGLTF mmul buildMat model d)) ∧
      (∀ (model : tinygltf.Model) (good : List tinygltf.Primitive)
          (bad : tinygltf.Primitive) (rest : List tinygltf.Primitive) (mat : List Nat)
          (d : MeshData),
          processPrimitive model bad mat = none →
          (∀ q ∈ good, processPrimitive model q mat ≠ none) →
          readGLTFMeshAux model (good ++ bad :: rest) mat d =
            readGLTFMeshAux model good mat d) := by
  constructor
  · intro mmul buildMat gltf_file model d h
    rw [MeshData.FromGLTF, not_glb_of_gltf gltf_file h, h]
    simp
  · intro model good bad rest mat d hbad hgood
    induction good generalizing d with
    | nil => simp [readGLTFMeshAux, hbad]
    | cons q good ih =>
      rcases hq : processPrimitive model q mat with _ | c
      · exact absurd hq (hgood q (by simp))
      · simp only [List.cons_append, readGLTFMeshAux, hq]
        exact ih _ (fun p hp => hgood p (List.mem_cons_of_mem q hp))

/-- Witness for C10 at a concrete scene: one mesh whose only primitive
has no indices; the import drops it and the call still succeeds. -/
theorem C10_witness :
    MeshData.FromGLTF (fun a _ => a) (fun _ => List.replicate 16 0)
        (String.toList "m.gltf")
        (some ⟨[], [], [], [⟨[⟨-1, 0, 4, []⟩]⟩], [⟨0, []⟩], [], [⟨[0]⟩], 0⟩) ⟨[], []⟩ =
      (true,
        ReadGLTF (fun a _ => a) (fun _ => List.replicate 16 0)
          ⟨[], [], [], [⟨[⟨-1, 0, 4, []⟩]⟩], [⟨0, []⟩], [], [⟨[0]⟩], 0⟩ ⟨[], []⟩) ∧
      readGLTFMeshAux ⟨[], [], [], [⟨[⟨-1, 0, 4, []⟩]⟩], [⟨0, []⟩], [], [⟨[0]⟩], 0⟩
          ([] ++ ⟨-1, 0, 4, []⟩ :: []) (List.replicate 16 0) ⟨[], []⟩ =
        readGLTFMeshAux ⟨[], [], [], [⟨[⟨-1, 0, 4, []⟩]⟩], [⟨0, []⟩], [], [⟨[0]⟩], 0⟩ []
          (List.replicate 16 0) ⟨[], []⟩ :=
  ⟨C10_fromGLTF_success_despite_rejection.1 _ _ _ _ _ (by decide),
    C10_fromGLTF_success_despite_rejection.2 _ [] _ [] _ _ (by rfl) (by simp)⟩

/-! ## C6: attribute order of the copy pass vs the stride scan -/

/-- The byte size an attribute contributes when present (0 when absent
or invalid). -/
def presentSize (model : tinygltf.Model) (prim : tinygltf.Primitive) (name : String) : Nat :=
  match attrFind prim.attributes name with
  | none => 0
  | some idx => accessorSize model idx

/-- The order in which the copy pass actually visits the attribute
slots: POSITION, the two colors, NORMAL, the eight texcoords.  Note it
differs from `all_names` (the stride-scan order), which puts NORMAL
before the colors. -/
def copy_order : List String :=
  ["POSITION", "COLOR_0", "COLOR_1", "NORMAL", "TEXCOORD_0", "TEXCOORD_1", "TEXCOORD_2",
   "TEXCOORD_3", "TEXCOORD_4", "TEXCOORD_5", "TEXCOORD_6", "TEXCOORD_7"]

/-- The spec's "assigned byte offset": the sum of the byte sizes of the
present attributes preceding `name` in the given fixed order. -/
def specOffsetIn (model : tinygltf.Model) (prim : tinygltf.Primitive) (order : List String)
    (name : String) : Nat :=
  ((order.takeWhile (fun n => n ≠ name)).map (presentSize model prim)).sum

theorem copy_advances (model : tinygltf.Model) (idx ob vstride : Nat) (vd : List Nat) :
    (CopyBufferDataFromPrimitive model idx ob vstride vd).1 = ob + accessorSize model idx := by
  unfold CopyBufferDataFromPrimitive accessorSize
  simp only [List.getD_eq_getElem?_getD]
  rcases h1 : GetNumComponentsInType ((model.accessors[idx]?.getD defaultAccessor).type)
    with _ | cc
  · simp [h1]
  rcases h2 : GetComponentSizeInBytes
      ((model.accessors[idx]?.getD defaultAccessor).componentType) with _ | cs
  · simp [h1, h2]
  simp [h1, h2]

theorem gltfFormat_preserves (ct : Nat) (f out : AttributeFormat)
    (h : GLTFComponentTypeToAttributeFormat ct f = some out) :
    out.offset = f.offset ∧ out.enable = f.enable ∧ out.components = f.components := by
  unfold GLTFComponentTypeToAttributeFormat at h
  split_ifs at h <;> simp_all <;> (subst h; simp)

theorem copyAttrSlot_spec (model : tinygltf.Model) (prim : tinygltf.Primitive) (name : String)
    (comps flag vstride : Nat) (st : Nat × List Nat × Nat)
    (out : (Nat × List Nat × Nat) × AttributeFormat)
    (h : copyAttrSlot model prim name comps flag vstride st = some out) :
    out.1.1 = st.1 + presentSize model prim name ∧
      (out.2.enable = true → out.2.offset = st.1) := by
  unfold copyAttrSlot at h
  rcases ha : attrFind prim.attributes name with _ | idx <;> rw [ha] at h
  · simp only [Option.some_inj] at h
    subst h
    simp [presentSize, ha, defaultAttr]
  · simp only at h
    rcases hg : GLTFComponentTypeToAttributeFormat
        (model.accessors.getD idx defaultAccessor).componentType
        { defaultAttr with offset := st.1, enable := true, components := comps }
      with _ | attr <;> rw [hg] at h
    · exact absurd h (by simp)
    · simp only [Option.some_inj] at h
      subst h
      obtain ⟨hoff, hen, hcomp⟩ := gltfFormat_preserves _ _ _ hg
      refine ⟨?_, fun _ => by simp [hoff]⟩
      simp [copy_advances, presentSize, ha]

theorem copySlots_spec (model : tinygltf.Model) (prim : tinygltf.Primitive)
    (comps vstride : Nat) (specs : List (String × Nat)) :
    ∀ (st : Nat × List Nat × Nat) (st2 : Nat × List Nat × Nat)
      (attrs : List AttributeFormat),
      copySlots model prim comps vstride specs st = some (st2, attrs) →
      st2.1 = st.1 + ((specs.map (fun s => presentSize model prim s.1)).sum) ∧
        attrs.length = specs.length ∧
        ∀ k, k < specs.length →
          (attrs.getD k defaultAttr).enable = true →
          (attrs.getD k defaultAttr).offset =
            st.1 + (((specs.take k).map (fun s => presentSize model prim s.1)).sum) := by
  induction specs with
  | nil =>
    intro st st2 attrs h
    simp only [copySlots, Option.some_inj, Prod.mk.injEq] at h
    obtain ⟨h1, h2⟩ := h
    subst h1
    subst h2
    exact ⟨by simp, rfl, fun k hk => by simp at hk⟩
  | cons spec specs ih =>
    intro st st2 attrs h
    obtain ⟨name, flag⟩ := spec
    simp only [copySlots] at h
    rcases hslot : copyAttrSlot model prim name comps flag vstride st with _ | out1 <;>
      rw [hslot] at h
    · exact absurd h (by simp)
    rcases out1 with ⟨st1, attr⟩
    simp only at h
    rcases hrest : copySlots model prim comps vstride specs st1 with _ | out2 <;>
      rw [hrest] at h
    · exact absurd h (by simp)
    rcases out2 with ⟨st2m, attrs2⟩
    simp only [Option.some_inj, Prod.mk.injEq] at h
    obtain ⟨hst, hat⟩ := h
    subst hst
    subst hat
    obtain ⟨hadv, hoff⟩ := copyAttrSlot_spec model prim name comps flag vstride st _ hslot
    obtain ⟨hsum, hlen, hidx⟩ := ih st1 st2m attrs2 hrest
    refine ⟨?_, by simp [hlen], ?_⟩
    · rw [hsum, hadv]
      simp only [List.map_cons, List.sum_cons]
      omega
    · intro k hk hen
      cases k with
      | zero =>
        simp only [List.getD_cons_zero] at hen ⊢
        exact hoff hen
      | succ k =>
        simp only [List.getD_cons_succ] at hen ⊢
        rw [hidx k (by simp at hk; omega) hen, hadv]
        simp only [List.take_succ_cons, List.map_cons, List.sum_cons]
        omega

theorem strideFold (model : tinygltf.Model) (prim : tinygltf.Primitive)
    (names : List String) :
    ∀ s0, names.foldl
        (fun stride name =>
          match attrFind prim.attributes name with
          | none => stride
          | some idx => UpdateVertexStrideFromPrimitive model idx stride) s0 =
      s0 + ((names.map (presentSize model prim)).sum) := by
  induction names with
  | nil => intro s0; simp
  | cons n names ih =>
    intro s0
    simp only [List.foldl_cons, List.map_cons, List.sum_cons]
    rcases ha : attrFind prim.attributes n with _ | idx <;>
      simp only [ha] <;> rw [ih] <;>
      simp only [UpdateVertexStrideFromPrimitive, presentSize, ha]
    case none => omega
    case some => exact Nat.add_assoc s0 _ _

/-- C6 amended: the copy pass assigns offsets following its own fixed
order (`copy_order`: POSITION, colors, NORMAL, texcoords) — every
enabled attribute's offset is the sum of the byte sizes of the present
attributes that precede it in that order — while the stride is the sum
over the (differently ordered) `all_names` scan; the two orders give the
same total. -/
theorem C6_copy_pass_offsets (model : tinygltf.Model) (prim : tinygltf.Primitive)
    (mat : List Nat) (chunk : MeshDataChunk)
    (h : processPrimitive model prim mat = some chunk) :
    chunk.vertex_stride = ((all_names.map (presentSize model prim)).sum) ∧
      chunk.vertex_declaration.position.offset =
        specOffsetIn model prim copy_order "POSITION" ∧
      (∀ k, k < 2 →
        (chunk.vertex_declaration.colors.getD k defaultAttr).enable = true →
        (chunk.vertex_declaration.colors.getD k defaultAttr).offset =
          specOffsetIn model prim copy_order ((color_specs.getD k ("", 0)).1)) ∧
      ((chunk.vertex_declaration.normals.getD 0 defaultAttr).enable = true →
        (chunk.vertex_declaration.normals.getD 0 defaultAttr).offset =
          specOffsetIn model prim copy_order "NORMAL") ∧
      (∀ k, k < 8 →
        (chunk.vertex_declaration.texcoords.getD k defaultAttr).enable = true →
        (chunk.vertex_declaration.texcoords.getD k defaultAttr).offset =
          specOffsetIn model prim copy_order ((texcoord_specs.getD k ("", 0)).1)) := by
  simp only [processPrimitive] at h
  split at h
  · exact absurd h (by simp)
  split at h
  · exact absurd h (by simp)
  split at h
  · exact absurd h (by simp)
  split at h
  · exact absurd h (by simp)
  next posIdx hpos =>
  split at h
  · exact absurd h (by simp)
  next posAttr hfmt =>
  split at h
  · exact absurd h (by simp)
  next ob2 vd2 ca2 colorAttrs hcolors =>
  split at h
  · exact absurd h (by simp)
  next ob3 vd3 ca3 normalAttr hnorm =>
  split at h
  · exact absurd h (by simp)
  next ob4 vd4 ca4 texAttrs htex =>
  rw [Option.some_inj] at h
  subst h
  have hstride := strideFold model prim all_names 0
  obtain ⟨hcadv, hclen, hcidx⟩ := copySlots_spec model prim 3 _ color_specs _ _ _ hcolors
  obtain ⟨hnadv, hnoff⟩ := copyAttrSlot_spec model prim "NORMAL" 3 VB_HAS_NORMAL _ _ _ hnorm
  obtain ⟨htadv, htlen, htidx⟩ := copySlots_spec model prim 2 _ texcoord_specs _ _ _ htex
  obtain ⟨hpo, hpe, hpc⟩ := gltfFormat_preserves _ _ _ hfmt
  simp only [copy_advances] at hcadv hcidx
  have hps : accessorSize model posIdx = presentSize model prim "POSITION" := by
    simp [presentSize, hpos]
  refine ⟨by simpa using hstride, ?_, ?_, ?_, ?_⟩
  · simp only at hpo
    simp [hpo, specOffsetIn, copy_order]
  · intro k hk hen
    have hoff := hcidx k (by simpa [color_specs] using hk) hen
    simp only at hoff
    interval_cases k
    · rw [hoff]
      simp [specOffsetIn, copy_order, color_specs, hps]
    · rw [hoff]
      simp [specOffsetIn, copy_order, color_specs, List.take_succ_cons, hps]
  · intro hen
    simp only [List.getD_cons_zero] at hen ⊢
    rw [hnoff hen]
    rw [hcadv]
    simp [specOffsetIn, copy_order, color_specs, hps]
  · intro k hk hen
    have hoff := htidx k (by simpa [texcoord_specs] using hk) hen
    simp only at hoff
    have hob3 : ob3 = ob2 + presentSize model prim "NORMAL" := by simpa using hnadv
    interval_cases k <;>
      rw [hoff, hob3, hcadv] <;>
      simp [specOffsetIn, copy_order, color_specs, texcoord_specs, hps] <;>
      omega

/-- A concrete primitive for C6: POSITION, NORMAL and COLOR_0 present,
each a float VEC3 (12 bytes), with a ushort scalar index accessor.
The attribute map is listed in std::map key order. -/
def c6prim : tinygltf.Primitive :=
  ⟨3, 0, 4, [("COLOR_0", 2), ("NORMAL", 1), ("POSITION", 0)]⟩

def c6model : tinygltf.Model :=
  { accessors :=
      [⟨0, 0, 5126, 1, 3⟩, ⟨1, 0, 5126, 1, 3⟩, ⟨2, 0, 5126, 1, 3⟩, ⟨3, 0, 5123, 1, 65⟩]
    bufferViews := [⟨0, 0, 0⟩, ⟨0, 12, 0⟩, ⟨0, 24, 0⟩, ⟨0, 36, 0⟩]
    buffers := [⟨List.replicate 38 0⟩]
    meshes := [⟨[c6prim]⟩]
    nodes := []
    materials := [⟨[109, 97, 116]⟩]
    scenes := []
    defaultScene := 0 }

/-- Counterexample to C6 as stated: the copy pass does NOT follow the
stride-scan order `all_names` (POSITION, NORMAL, COLOR_0, ...) — it
copies colors before the normal.  On a primitive with POSITION, NORMAL,
COLOR_0 (12 bytes each) the importer records NORMAL at offset 24 and
COLOR_0 at offset 12, while the byte sizes of the attributes preceding
them in the single fixed `all_names` order sum to 12 and 24
respectively. -/
theorem C6_counterexample :
    ((processPrimitive c6model c6prim (List.replicate 16 0)).map
        (fun c =>
          ((c.vertex_declaration.normals.getD 0 defaultAttr).offset,
            (c.vertex_declaration.colors.getD 0 defaultAttr).offset))) = some (24, 12) ∧
      specOffsetIn c6model c6prim all_names "NORMAL" = 12 ∧
      specOffsetIn c6model c6prim all_names "COLOR_0" = 24 ∧
      (24 : Nat) ≠ 12 := by
  refine ⟨by rfl, by rfl, by rfl, by decide⟩

def c6defaultChunk : MeshDataChunk :=
  ⟨[], 0, 0, [], 0, ⟨0, defaultAttr, [], [], [], defaultAttr⟩, .points, 0, [], []⟩

/-- Witness for the amended C6 at the concrete scene: the recorded
stride equals the `all_names` sum of present-attribute sizes, and the
enabled NORMAL slot sits at its copy-order offset. -/
theorem C6_witness :
    ((processPrimitive c6model c6prim (List.replicate 16 0)).getD c6defaultChunk).vertex_stride =
        (all_names.map (presentSize c6model c6prim)).sum ∧
      (((processPrimitive c6model c6prim
              (List.replicate 16 0)).getD c6defaultChunk).vertex_declaration.normals.getD 0
            defaultAttr).offset =
        specOffsetIn c6model c6prim copy_order "NORMAL" :=
  ⟨(C6_copy_pass_offsets c6model c6prim (List.replicate 16 0) _ (by rfl)).1,
    (C6_copy_pass_offsets c6model c6prim (List.replicate 16 0) _ (by rfl)).2.2.2.1 (by rfl)⟩

/-! ## C8: shader/material property matching in
CustomPipelineAction::OnTextureCreate

The model covers the composition-validity decision as far as the
property sets determine it: the size check, the per-property lookup of
the material code name in the shader's property map, the texture-kind
dispatch, and the final shared-texture/main-texture consistency check.
(The remaining invalidation paths of OnTextureCreate depend on externally
loaded texture data, not on the property sets.) -/

/-- The shader-side property kinds the loop distinguishes.  `other`
stands for every non-sampler ShaderProperty::Type: the code compares
only against the three sampler kinds, so all remaining enum values
behave identically. -/
inductive ShaderPropertyType where
  | sampler2D
  | samplerArraySharedMain
  | samplerArraySharedAdditional
  | other
deriving DecidableEq

structure ShaderProperty where
  m_type : ShaderPropertyType
deriving DecidableEq

/-- `std::map<std::string, ShaderProperty>::find`. -/
def spFind (props : List (String × ShaderProperty)) (key : String) : Option ShaderProperty :=
  match props with
  | [] => none
  | (k, v) :: rest => if k = key then some v else spFind rest key

/-- The per-property loop of OnTextureCreate, tracking whether a main
shared texture and an additional shared texture were seen; the final
check rejects a shared texture without a main one. -/
def texturePropertyLoop {F : Type} :
    List (MaterialProperty F) → List (String × ShaderProperty) → Bool → Bool → Bool
  | [], _, mainFound, hasShared => !(hasShared && !mainFound)
  | p :: rest, shader_props, mainFound, hasShared =>
    match spFind shader_props p.m_code_name with
    | none => false
    | some shaderProp =>
      if p.m_type = PropertyType.textureAsset then
        match shaderProp.m_type with
        | .samplerArraySharedMain => texturePropertyLoop rest shader_props true hasShared
        | .samplerArraySharedAdditional => texturePropertyLoop rest shader_props mainFound true
        | .sampler2D => texturePropertyLoop rest shader_props mainFound hasShared
        | .other => false
      else texturePropertyLoop rest shader_props mainFound hasShared

/-- The value of `m_valid` after OnTextureCreate's property-matching
stage: false on a count mismatch, then the loop. -/
def OnTextureCreateValid {F : Type} (material_props : List (MaterialProperty F))
    (shader_props : List (String × ShaderProperty)) : Bool :=
  if shader_props.length ≠ material_props.length then false
  else texturePropertyLoop material_props shader_props false false

/-- Counterexample to C8 as stated: a material that lists the SAME code
name twice against a shader with two distinct properties has no 1:1
(same-order or any-order) match with the shader's property set — the
shader property "b" is matched by nothing — yet the composition check
accepts it: the counts agree and every material name is found in the
shader map, which is all the code verifies. -/
theorem C8_counterexample :
    OnTextureCreateValid
        [(⟨"a", .int, some (.int 1)⟩ : MaterialProperty Int), ⟨"a", .int, some (.int 1)⟩]
        [("a", ⟨.other⟩), ("b", ⟨.other⟩)] = true ∧
      ¬("b" ∈
        ([(⟨"a", .int, some (.int 1)⟩ : MaterialProperty Int), ⟨"a", .int, some (.int 1)⟩].map
          (fun p => p.m_code_name))) := by
  refine ⟨by rfl, by decide⟩

theorem texturePropertyLoop_missing_name {F : Type} (shader_props : List (String × ShaderProperty)) :
    ∀ (props : List (MaterialProperty F)) (p : MaterialProperty F) (m h : Bool),
      p ∈ props → spFind shader_props p.m_code_name = none →
      texturePropertyLoop props shader_props m h = false := by
  intro props
  induction props with
  | nil => intro p m h hmem; exact absurd hmem (by simp)
  | cons q rest ih =>
    intro p m h hmem hnone
    rcases List.mem_cons.mp hmem with rfl | hmem2
    · simp [texturePropertyLoop, hnone]
    · simp only [texturePropertyLoop]
      rcases hq : spFind shader_props q.m_code_name with _ | sp
      · rfl
      · simp only
        split
        · match hsp : sp.m_type with
          | .samplerArraySharedMain => simp [hsp, ih p true h hmem2 hnone]
          | .samplerArraySharedAdditional => simp [hsp, ih p m true hmem2 hnone]
          | .sampler2D => simp [hsp, ih p m h hmem2 hnone]
          | .other => simp [hsp]
        · exact ih p m h hmem2 hnone

/-- C8 amended: the composition check rejects whenever the property
counts differ (count mismatch alone suffices), and whenever some
material property's code name has no entry in the shader's property
map.  It does not check order or a true bijection: the lookup is by
name in a map, so duplicated material code names that each resolve to
the same shader entry are accepted (see the counterexample). -/
theorem C8_count_or_name_mismatch_rejects {F : Type}
    (material_props : List (MaterialProperty F))
    (shader_props : List (String × ShaderProperty)) :
    (shader_props.length ≠ material_props.length →
      OnTextureCreateValid material_props shader_props = false) ∧
      (∀ p : MaterialProperty F, p ∈ material_props →
        spFind shader_props p.m_code_name = none →
        OnTextureCreateValid material_props shader_props = false) := by
  constructor
  · intro hne
    simp [OnTextureCreateValid, hne]
  · intro p hmem hnone
    unfold OnTextureCreateValid
    split
    · rfl
    · exact texturePropertyLoop_missing_name shader_props material_props p false false hmem hnone

/-- Witness for the amended C8: a count mismatch (2 shader properties vs
1 material property) and a missing name ("c" not in the shader map) are
each rejected. -/
theorem C8_witness :
    OnTextureCreateValid [(⟨"a", .int, some (.int 1)⟩ : MaterialProperty Int)]
        [("a", ⟨.other⟩), ("b", ⟨.other⟩)] = false ∧
      OnTextureCreateValid [(⟨"c", .int, some (.int 1)⟩ : MaterialProperty Int)]
        [("a", ⟨.other⟩)] = false :=
  ⟨(C8_count_or_name_mismatch_rejects _ _).1 (by decide),
    (C8_count_or_name_mismatch_rejects _ _).2 ⟨"c", .int, some (.int 1)⟩ (by simp) (by rfl)⟩

/-! ## C4: the GlobalConflicts scanner of CustomPipelineAction.cpp

The scanner is embedded index-by-index from the C++ `for` loop.  `i`
advances by at least one per outer iteration, so a fuel of
`source.length + 1` runs the loop to completion; out-of-bounds reads
(which the C++ performs, undefined, only in corner cases like a
`#define` ending the file) are modelled with `getD` and a NUL default. -/

def IsQualifier (value : String) : Bool :=
  ["attribute", "const", "highp", "lowp", "mediump", "uniform", "varying"].contains value

def IsBuiltInMacro (value : String) : Bool :=
  ["__LINE__", "__FILE__", "__VERSION__", "GL_core_profile",
   "GL_compatibility_profile"].contains value

/-- The character class of `parse_identifier`'s scan
(Common::IsAlpha, underscore, std::isdigit). -/
def isIdentChar (c : Char) : Bool := c.isAlpha || c = '_' || c.isDigit

/-- `parse_until_end_of_preprocessor`: the index of the newline ending
the (possibly backslash-continued) preprocessor line, starting at `i`
with the given continuation flag. -/
def preprocEnd (s : List Char) (i : Nat) (flag : Bool) : Nat :=
  if h : i < s.length then
    if s.getD i '\x00' = '\n' then (if flag then preprocEnd s (i + 1) false else i)
    else if s.getD i '\x00' = '\\' then preprocEnd s (i + 1) true
    else preprocEnd s (i + 1) flag
  else i
termination_by s.length - i
decreasing_by all_goals omega

/-- The `/* ... */` skip: the first index `j ≥ i` whose character is '/'
preceded by '*'.  (For `j = 0` the C++ reads one byte before the
buffer, which is undefined; the model reads index 0 there.) -/
def blockCommentEnd (s : List Char) (i : Nat) : Nat :=
  if h : i < s.length then
    if s.getD i '\x00' = '/' ∧ s.getD (i - 1) '\x00' = '*' then i
    else blockCommentEnd s (i + 1)
  else i
termination_by s.length - i
decreasing_by all_goals omega

/-- One iteration of the C++ scanner loop of GlobalConflicts (the body
of the `for` over `i`), mapping the state (index, brace `scope`,
`last_identifier`, `global_result`) to the state at the next iteration.
Precondition `i < source.size()` is checked by the loop below. -/
def gcStep (s : List Char) (i sc : Nat) (last : String) (acc : List String) :
    Nat × Nat × String × List String :=
  if sc > 0 then
    if s.getD i '\x00' = '\x7b' then (i + 1, sc + 1, last, acc)
    else if s.getD i '\x00' = '\x7d' then (i + 1, sc - 1, last, acc)
    else (i + 1, sc, last, acc)
  else if (s.getD i '\x00').isAlpha || s.getD i '\x00' = '_' then
    if IsQualifier (String.mk ((s.drop i).takeWhile isIdentChar)) then
      (i + ((s.drop i).takeWhile isIdentChar).length, sc, last, acc)
    else if IsBuiltInMacro (String.mk ((s.drop i).takeWhile isIdentChar)) then
      (i + ((s.drop i).takeWhile isIdentChar).length, sc, last, acc)
    else
      (i + ((s.drop i).takeWhile isIdentChar).length, sc,
        String.mk ((s.drop i).takeWhile isIdentChar), acc)
  else if s.getD i '\x00' = '#' then
    if String.mk ((s.drop (i + 1)).takeWhile isIdentChar) = "define" then
      (preprocEnd s
          (i + 1 + ((s.drop (i + 1)).takeWhile isIdentChar).length +
            ((s.drop (i + 1 + ((s.drop (i + 1)).takeWhile isIdentChar).length)).takeWhile
              (fun c => c = ' ')).length +
            ((s.drop (i + 1 + ((s.drop (i + 1)).takeWhile isIdentChar).length +
              ((s.drop (i + 1 + ((s.drop (i + 1)).takeWhile isIdentChar).length)).takeWhile
                (fun c => c = ' ')).length)).takeWhile isIdentChar).length - 1) false + 1,
        sc, last,
        acc ++
          [String.mk
            ((s.drop (i + 1 + ((s.drop (i + 1)).takeWhile isIdentChar).length +
              ((s.drop (i + 1 + ((s.drop (i + 1)).takeWhile isIdentChar).length)).takeWhile
                (fun c => c = ' ')).length)).takeWhile isIdentChar)])
    else
      (preprocEnd s (i + 1 + ((s.drop (i + 1)).takeWhile isIdentChar).length - 1) false + 1,
        sc, last, acc)
  else if s.getD i '\x00' = '\x7b' then (i + 1, sc + 1, last, acc)
  else if s.getD i '\x00' = '(' then
    if last = "layout" then (i + 1, sc, last, acc)
    else (i + 1, sc, last, acc ++ [last])
  else if s.getD i '\x00' = '=' then
    (i + 1 + ((s.drop (i + 1)).takeWhile (fun c => !(c = ';'))).length + 1, sc, last,
      acc ++ [last])
  else if s.getD i '\x00' = '/' then
    if i + 1 ≥ s.length then (i + 1, sc, last, acc)
    else if s.getD (i + 1) '\x00' = '/' then
      (i + ((s.drop i).takeWhile (fun c => !(c = '\n'))).length + 1, sc, last, acc)
    else if s.getD (i + 1) '\x00' = '*' then (blockCommentEnd s i + 1, sc, last, acc)
    else (i + 1, sc, last, acc)
  else (i + 1, sc, last, acc)

/-- The scanner loop: iterate `gcStep` while `i < source.size()`.  Each
iteration advances `i` by at least one, so `source.length + 1` fuel runs
it to completion. -/
def gcLoop (s : List Char) : Nat → Nat → Nat → String → List String → List String
  | 0, _, _, _, acc => acc
  | fuel + 1, i, sc, last, acc =>
    if i < s.length then
      gcLoop s fuel (gcStep s i sc last acc).1 (gcStep s i sc last acc).2.1
        (gcStep s i sc last acc).2.2.1 (gcStep s i sc last acc).2.2.2
    else acc

/-- GlobalConflicts: run the scanner, then sort the result by identifier
length, longest first (std::sort with `first.size() > second.size()`;
the order among equal lengths is unspecified in C++, and the model's
stable sort is one of the permitted outcomes — the claims below only
use membership, which is order-independent). -/
def GlobalConflicts (source : List Char) : List String :=
  List.insertionSort (fun a b => b.length ≤ a.length)
    (gcLoop source (source.length + 1) 0 0 "" [])

/-- Counterexample to C4 as stated, on the source
`{ /* } */ a = 1; } b = 2, c = 3;`:
once the scanner is inside a block it tracks braces only, so the `}`
inside the comment (which does not close the block in the language)
drops its depth to zero and `a` — an identifier appearing only inside
the block — is reported as a global; and after recording `b` the `=`
handler skips to the terminating `;`, so `c`, assigned at depth 0 in
the same statement, is never reported. -/
theorem C4_counterexample :
    "a" ∈ GlobalConflicts "\x7b /* \x7d */ a = 1; \x7d b = 2, c = 3;".toList ∧
      "c" ∉ GlobalConflicts "\x7b /* \x7d */ a = 1; \x7d b = 2, c = 3;".toList := by
  refine ⟨by decide, by decide⟩

/-! ### A well-formed top-level statement grammar, on which the scanner
is proved to report exactly the declared global names (the amended C4) -/

/-- Top-level GLSL statements of the three kinds the claim describes:
a `#define`, a global assignment, and a function definition (with empty
parameter list; the body may be arbitrary text with balanced braces). -/
inductive GlslStmt where
  | defineStmt (name : String) (body : List Char)
  | assignStmt (name : String) (expr : List Char)
  | funcStmt (ret name : String) (body : List Char)

def renderStmt : GlslStmt → List Char
  | .defineStmt name body => "#define ".toList ++ name.data ++ [' '] ++ body ++ ['\n']
  | .assignStmt name expr => name.data ++ " = ".toList ++ expr ++ [';', '\n']
  | .funcStmt ret name body =>
    ret.data ++ [' '] ++ name.data ++ ['(', ')', ' ', '\x7b'] ++ body ++ ['\x7d', '\n']

/-- The one global name each statement defines. -/
def declaredName : GlslStmt → String
  | .defineStmt name _ => name
  | .assignStmt name _ => name
  | .funcStmt _ name _ => name

/-- A well-formed identifier: non-empty, identifier characters only,
starting with a letter or underscore. -/
def wfIdent (name : String) : Prop :=
  name.data ≠ [] ∧ (∀ c ∈ name.data, isIdentChar c = true) ∧
    ((name.data.headD ' ').isAlpha = true ∨ name.data.headD ' ' = '_')

/-- Brace-safety of a function body entered at depth `sc`: the textual
brace count never returns to zero inside the body. -/
def scopeSafe : List Char → Nat → Prop
  | [], _ => True
  | c :: rest, sc =>
    if c = '\x7b' then scopeSafe rest (sc + 1)
    else if c = '\x7d' then 1 < sc ∧ scopeSafe rest (sc - 1)
    else scopeSafe rest sc

/-- The textual brace depth after a body entered at depth `sc`. -/
def endScope : List Char → Nat → Nat
  | [], sc => sc
  | c :: rest, sc =>
    if c = '\x7b' then endScope rest (sc + 1)
    else if c = '\x7d' then endScope rest (sc - 1)
    else endScope rest sc

def wfStmt : GlslStmt → Prop
  | .defineStmt name body => wfIdent name ∧ ∀ c ∈ body, c ≠ '\n' ∧ c ≠ '\\'
  | .assignStmt name expr =>
    wfIdent name ∧ IsQualifier name = false ∧ IsBuiltInMacro name = false ∧
      ∀ c ∈ expr, c ≠ ';'
  | .funcStmt ret name body =>
    wfIdent ret ∧ wfIdent name ∧ IsQualifier name = false ∧ IsBuiltInMacro name = false ∧
      name ≠ "layout" ∧ scopeSafe body 1 ∧ endScope body 1 = 1

/-- The scanner run from position `i` with just enough fuel. -/
def scanFrom (s : List Char) (i sc : Nat) (last : String) (acc : List String) : List String :=
  gcLoop s (s.length + 1 - i) i sc last acc

/-! ### Generic facts about the scanner's index arithmetic -/

theorem gcLoop_out (s : List Char) (fuel i sc : Nat) (last : String) (acc : List String)
    (h : s.length ≤ i) : gcLoop s fuel i sc last acc = acc := by
  cases fuel with
  | zero => rfl
  | succ f => simp [gcLoop, Nat.not_lt.mpr h]

theorem preprocEnd_ge (s : List Char) (i : Nat) (flag : Bool) : i ≤ preprocEnd s i flag := by
  unfold preprocEnd
  split
  · split
    · split
      · have := preprocEnd_ge s (i + 1) false
        omega
      · omega
    · split
      · have := preprocEnd_ge s (i + 1) true
        omega
      · have := preprocEnd_ge s (i + 1) flag
        omega
  · omega
termination_by s.length - i
decreasing_by all_goals omega

theorem blockCommentEnd_ge (s : List Char) (i : Nat) : i ≤ blockCommentEnd s i := by
  unfold blockCommentEnd
  split
  · split
    · omega
    · have := blockCommentEnd_ge s (i + 1)
      omega
  · omega
termination_by s.length - i
decreasing_by all_goals omega

theorem getD_eq_headD_drop (s : List Char) (i : Nat) (d : Char) :
    s.getD i d = (s.drop i).headD d := by
  induction s generalizing i with
  | nil => cases i <;> rfl
  | cons c rest ih =>
    cases i with
    | zero => rfl
    | succ j => simp only [List.getD_cons_succ, List.drop_succ_cons]; exact ih j

theorem drop_cons_facts (s : List Char) (i : Nat) (c : Char) (tail : List Char)
    (h : s.drop i = c :: tail) :
    i < s.length ∧ s.getD i '\x00' = c ∧ s.drop (i + 1) = tail := by
  have hlt : i < s.length := by
    by_contra hcontra
    rw [List.drop_eq_nil_of_le (by omega)] at h
    exact List.noConfusion h
  refine ⟨hlt, ?_, ?_⟩
  · rw [getD_eq_headD_drop, h]
    rfl
  · have : s.drop (i + 1) = (s.drop i).drop 1 := by
      rw [List.drop_drop]
    rw [this, h]
    rfl

theorem drop_eq_getD_cons (s : List Char) (i : Nat) (h : i < s.length) :
    s.drop i = s.getD i '\x00' :: s.drop (i + 1) := by
  induction s generalizing i with
  | nil => simp at h
  | cons c rest ih =>
    cases i with
    | zero => rfl
    | succ j =>
      simp only [List.drop_succ_cons, List.getD_cons_succ]
      exact ih j (by simpa using h)


set_option maxHeartbeats 1600000 in
theorem gcStep_advance (s : List Char) (i sc : Nat) (last : String) (acc : List String)
    (hi : i < s.length) : i + 1 ≤ (gcStep s i sc last acc).1 := by
  have hrun : ((s.getD i '\x00').isAlpha || s.getD i '\x00' = '_') = true →
      1 ≤ ((s.drop i).takeWhile isIdentChar).length := by
    intro hc
    rw [drop_eq_getD_cons s i hi, List.takeWhile_cons_of_pos]
    · simp
    · simp only [isIdentChar, Bool.or_eq_true, decide_eq_true_eq]
      rcases Bool.or_eq_true .. |>.mp hc with hc1 | hc1
      · exact Or.inl (Or.inl hc1)
      · exact Or.inl (Or.inr (of_decide_eq_true hc1))
  unfold gcStep
  split_ifs with h1 h2 h3 h4 h5 h6 h7 h8 h9 h10 h11 h12 h13 h14 h15 h16 <;>
    simp only <;>
    try omega
  · have := hrun h4
    omega
  · have := hrun h4
    omega
  · have := hrun h4
    omega
  · have hp := preprocEnd_ge s
      (i + 1 + ((s.drop (i + 1)).takeWhile isIdentChar).length +
        ((s.drop (i + 1 + ((s.drop (i + 1)).takeWhile isIdentChar).length)).takeWhile
          (fun c => c = ' ')).length +
        ((s.drop (i + 1 + ((s.drop (i + 1)).takeWhile isIdentChar).length +
          ((s.drop (i + 1 + ((s.drop (i + 1)).takeWhile isIdentChar).length)).takeWhile
            (fun c => c = ' ')).length)).takeWhile isIdentChar).length - 1) false
    omega
  · have hp := preprocEnd_ge s
      (i + 1 + ((s.drop (i + 1)).takeWhile isIdentChar).length - 1) false
    omega
  · have hb := blockCommentEnd_ge s i
    omega

theorem gcLoop_fuel_irrel (s : List Char) :
    ∀ n i sc last acc fuel fuel',
      s.length - i ≤ n → s.length + 1 - i ≤ fuel → s.length + 1 - i ≤ fuel' →
      gcLoop s fuel i sc last acc = gcLoop s fuel' i sc last acc := by
  intro n
  induction n with
  | zero =>
    intro i sc last acc fuel fuel' hn hf hf'
    have hi : s.length ≤ i := by omega
    rw [gcLoop_out s fuel i sc last acc hi, gcLoop_out s fuel' i sc last acc hi]
  | succ n ih =>
    intro i sc last acc fuel fuel' hn hf hf'
    by_cases hi : i < s.length
    · rcases fuel with _ | f
      · omega
      rcases fuel' with _ | f'
      · omega
      have hadv := gcStep_advance s i sc last acc hi
      simp only [gcLoop, if_pos hi]
      exact ih _ _ _ _ _ _ (by omega) (by omega) (by omega)
    · rw [gcLoop_out s _ i sc last acc (by omega), gcLoop_out s _ i sc last acc (by omega)]

theorem gcLoop_eq_scanFrom (s : List Char) (fuel i sc : Nat) (last : String)
    (acc : List String) (hf : s.length + 1 - i ≤ fuel) :
    gcLoop s fuel i sc last acc = scanFrom s i sc last acc :=
  gcLoop_fuel_irrel s (s.length - i) i sc last acc fuel (s.length + 1 - i) (by omega) hf
    (by omega)

theorem scanFrom_out (s : List Char) (i sc : Nat) (last : String) (acc : List String)
    (h : s.length ≤ i) : scanFrom s i sc last acc = acc :=
  gcLoop_out s _ i sc last acc h

theorem scanFrom_step (s : List Char) (i sc : Nat) (last : String) (acc : List String)
    (hi : i < s.length) :
    scanFrom s i sc last acc =
      scanFrom s (gcStep s i sc last acc).1 (gcStep s i sc last acc).2.1
        (gcStep s i sc last acc).2.2.1 (gcStep s i sc last acc).2.2.2 := by
  unfold scanFrom
  have h1 : s.length + 1 - i = (s.length - i) + 1 := by omega
  rw [h1]
  simp only [gcLoop, if_pos hi]
  have hadv := gcStep_advance s i sc last acc hi
  exact gcLoop_fuel_irrel s (s.length - (gcStep s i sc last acc).1) _ _ _ _ _ _ (by omega)
    (by omega) (by omega)

theorem GlobalConflicts_eq_scanFrom (source : List Char) :
    GlobalConflicts source =
      List.insertionSort (fun a b => b.length ≤ a.length) (scanFrom source 0 0 "" []) := by
  unfold GlobalConflicts
  rw [gcLoop_eq_scanFrom source (source.length + 1) 0 0 "" [] (by omega)]

theorem takeWhile_append_of_all {α : Type} (p : α → Bool) (xs ys : List α)
    (h : ∀ x ∈ xs, p x = true) :
    (xs ++ ys).takeWhile p = xs ++ ys.takeWhile p := by
  induction xs with
  | nil => simp
  | cons x xs ih =>
    rw [List.cons_append, List.takeWhile_cons_of_pos (h x (by simp)), List.cons_append,
      ih (fun y hy => h y (by simp [hy]))]

theorem string_mk_data (name : String) : String.mk name.data = name := rfl

theorem gcStep_ident (s : List Char) (i : Nat) (last : String) (acc : List String)
    (name : String) (rest : List Char) (hdrop : s.drop i = name.data ++ rest)
    (hne : name.data ≠ []) (hall : ∀ c ∈ name.data, isIdentChar c = true)
    (hhead : (name.data.headD ' ').isAlpha = true ∨ name.data.headD ' ' = '_')
    (hstop : rest.takeWhile isIdentChar = []) :
    gcStep s i 0 last acc =
      (i + name.data.length, 0,
        if IsQualifier name then last
        else if IsBuiltInMacro name then last
        else name, acc) := by
  rcases hname : name.data with _ | ⟨hd, tl⟩
  · exact absurd hname hne
  obtain ⟨hi, hget, -⟩ :=
    drop_cons_facts s i hd (tl ++ rest) (by rw [hdrop, hname, List.cons_append])
  have hrun : (s.drop i).takeWhile isIdentChar = name.data := by
    rw [hdrop, takeWhile_append_of_all _ _ _ hall, hstop, List.append_nil]
  have hcond : ((s.getD i '\x00').isAlpha || s.getD i '\x00' = '_') = true := by
    rw [hget]
    rw [hname] at hhead
    simp only [List.headD_cons] at hhead
    rcases hhead with hh | hh <;> simp [hh]
  unfold gcStep
  rw [if_neg (by omega), if_pos hcond, hrun, string_mk_data, ← hname]
  split_ifs <;> rfl

theorem gcStep_single (s : List Char) (i : Nat) (last : String) (acc : List String)
    (c : Char) (rest : List Char) (hdrop : s.drop i = c :: rest)
    (h1 : c.isAlpha = false) (h2 : c ≠ '_') (h3 : c ≠ '#') (h4 : c ≠ '\x7b')
    (h5 : c ≠ '(') (h6 : c ≠ '=') (h7 : c ≠ '/') :
    gcStep s i 0 last acc = (i + 1, 0, last, acc) := by
  obtain ⟨hi, hget, -⟩ := drop_cons_facts s i c rest hdrop
  unfold gcStep
  rw [if_neg (by omega), if_neg (by rw [hget]; simp [h1, h2]),
    if_neg (by rw [hget]; simp [h3]), if_neg (by rw [hget]; simp [h4]),
    if_neg (by rw [hget]; simp [h5]), if_neg (by rw [hget]; simp [h6]),
    if_neg (by rw [hget]; simp [h7])]

theorem gcStep_brace_open (s : List Char) (i : Nat) (last : String) (acc : List String)
    (rest : List Char) (hdrop : s.drop i = '\x7b' :: rest) :
    gcStep s i 0 last acc = (i + 1, 1, last, acc) := by
  obtain ⟨hi, hget, -⟩ := drop_cons_facts s i '\x7b' rest hdrop
  unfold gcStep
  rw [if_neg (by omega), if_neg (by rw [hget]; decide), if_neg (by rw [hget]; decide),
    if_pos (by rw [hget])]

theorem gcStep_paren (s : List Char) (i : Nat) (last : String) (acc : List String)
    (rest : List Char) (hdrop : s.drop i = '(' :: rest) (hlast : last ≠ "layout") :
    gcStep s i 0 last acc = (i + 1, 0, last, acc ++ [last]) := by
  obtain ⟨hi, hget, -⟩ := drop_cons_facts s i '(' rest hdrop
  unfold gcStep
  rw [if_neg (by omega), if_neg (by rw [hget]; decide), if_neg (by rw [hget]; decide),
    if_neg (by rw [hget]; decide), if_pos (by rw [hget]), if_neg hlast]

theorem gcStep_eq (s : List Char) (i : Nat) (last : String) (acc : List String)
    (mid rest : List Char) (hdrop : s.drop i = '=' :: (mid ++ ';' :: rest))
    (hmid : ∀ c ∈ mid, c ≠ ';') :
    gcStep s i 0 last acc = (i + 1 + mid.length + 1, 0, last, acc ++ [last]) := by
  obtain ⟨hi, hget, hdrop1⟩ := drop_cons_facts s i '=' (mid ++ ';' :: rest) hdrop
  have hskip : ((s.drop (i + 1)).takeWhile (fun c => !(c = ';'))).length = mid.length := by
    rw [hdrop1, takeWhile_append_of_all _ _ _ (fun c hc => by simp [hmid c hc]),
      List.takeWhile_cons_of_neg (by simp)]
    simp
  unfold gcStep
  rw [if_neg (by omega), if_neg (by rw [hget]; decide), if_neg (by rw [hget]; decide),
    if_neg (by rw [hget]; decide), if_neg (by rw [hget]; decide), if_pos (by rw [hget]),
    hskip]

theorem gcStep_scope (s : List Char) (i sc : Nat) (last : String) (acc : List String)
    (c : Char) (rest : List Char) (hdrop : s.drop i = c :: rest) (hsc : 0 < sc) :
    gcStep s i sc last acc =
      (i + 1, if c = '\x7b' then sc + 1 else if c = '\x7d' then sc - 1 else sc, last, acc) := by
  obtain ⟨hi, hget, -⟩ := drop_cons_facts s i c rest hdrop
  unfold gcStep
  rw [if_pos hsc, hget]
  split_ifs <;> rfl

theorem isIdentChar_not_special (c : Char) (h : isIdentChar c = true) :
    c ≠ '\n' ∧ c ≠ '\\' := by
  constructor <;> (intro he; subst he; simp [isIdentChar] at h)

theorem preprocEnd_run (s : List Char) :
    ∀ (pre : List Char) (i : Nat) (rest : List Char),
      s.drop i = pre ++ '\n' :: rest → (∀ c ∈ pre, c ≠ '\n' ∧ c ≠ '\\') →
      preprocEnd s i false = i + pre.length := by
  intro pre
  induction pre with
  | nil =>
    intro i rest hdrop hpre
    obtain ⟨hi, hget, -⟩ := drop_cons_facts s i '\n' rest (by simpa using hdrop)
    unfold preprocEnd
    rw [dif_pos hi, if_pos hget]
    simp
  | cons c pre ih =>
    intro i rest hdrop hpre
    obtain ⟨hi, hget, hdrop1⟩ := drop_cons_facts s i c (pre ++ '\n' :: rest)
      (by simpa using hdrop)
    have hc := hpre c (by simp)
    unfold preprocEnd
    rw [dif_pos hi, if_neg (by rw [hget]; exact hc.1), if_neg (by rw [hget]; exact hc.2),
      ih (i + 1) rest hdrop1 (fun d hd => hpre d (by simp [hd]))]
    simp only [List.length_cons]
    omega

theorem drop_add (s : List Char) (i k : Nat) : s.drop (i + k) = (s.drop i).drop k := by
  rw [List.drop_drop]

theorem gcStep_define (s : List Char) (i : Nat) (last : String) (acc : List String)
    (name : String) (body rest : List Char)
    (hdrop : s.drop i = "#define ".toList ++ name.data ++ ' ' :: body ++ '\n' :: rest)
    (hne : name.data ≠ []) (hall : ∀ c ∈ name.data, isIdentChar c = true)
    (hbody : ∀ c ∈ body, c ≠ '\n' ∧ c ≠ '\\') :
    gcStep s i 0 last acc =
      (i + 10 + name.data.length + body.length, 0, last, acc ++ [name]) := by
  have hdrop' : s.drop i =
      '#' :: ('d' :: 'e' :: 'f' :: 'i' :: 'n' :: 'e' :: ' ' ::
        (name.data ++ ' ' :: body ++ '\n' :: rest)) := by
    rw [hdrop]; rfl
  obtain ⟨hi, hget, hd1⟩ := drop_cons_facts s i '#' _ hdrop'
  have hrun : (s.drop (i + 1)).takeWhile isIdentChar = ['d', 'e', 'f', 'i', 'n', 'e'] := by
    rw [hd1, List.takeWhile_cons_of_pos (by decide), List.takeWhile_cons_of_pos (by decide),
      List.takeWhile_cons_of_pos (by decide), List.takeWhile_cons_of_pos (by decide),
      List.takeWhile_cons_of_pos (by decide), List.takeWhile_cons_of_pos (by decide),
      List.takeWhile_cons_of_neg (by decide)]
  have hd7 : s.drop (i + 1 + 6) = ' ' :: (name.data ++ ' ' :: body ++ '\n' :: rest) := by
    rw [drop_add s (i + 1) 6, hd1]
    rfl
  obtain ⟨hd, tl, hnd⟩ : ∃ hd tl, name.data = hd :: tl := by
    cases h : name.data with
    | nil => exact absurd h hne
    | cons a l => exact ⟨a, l, rfl⟩
  have hspaces : (s.drop (i + 1 + 6)).takeWhile (fun c => c = ' ') = [' '] := by
    rw [hd7, List.takeWhile_cons_of_pos (by decide), hnd, List.append_assoc,
      List.cons_append, List.takeWhile_cons_of_neg]
    have hidh := hall hd (by rw [hnd]; simp)
    simp only [decide_eq_true_eq]
    intro he; rw [he] at hidh; simp [isIdentChar] at hidh
  obtain ⟨-, -, hd8⟩ := drop_cons_facts s (i + 1 + 6) ' ' _ hd7
  have hnameRun : (s.drop (i + 1 + 6 + 1)).takeWhile isIdentChar = name.data := by
    rw [hd8, List.append_assoc, List.cons_append, takeWhile_append_of_all _ _ _ hall,
      List.takeWhile_cons_of_neg (by decide), List.append_nil]
  have hN : 0 < name.data.length := List.length_pos.mpr hne
  have hdropN : s.drop (i + 1 + 6 + 1 + name.data.length - 1) =
      (name.data.drop (name.data.length - 1) ++ ' ' :: body) ++ '\n' :: rest := by
    rw [show i + 1 + 6 + 1 + name.data.length - 1 =
        (i + 1 + 6 + 1) + (name.data.length - 1) from by omega,
      drop_add s (i + 1 + 6 + 1) (name.data.length - 1), hd8,
      List.drop_append_of_le_length (by simp; omega),
      List.drop_append_of_le_length (by omega)]
  have hpre : ∀ c ∈ name.data.drop (name.data.length - 1) ++ ' ' :: body,
      c ≠ '\n' ∧ c ≠ '\\' := by
    intro c hc
    rcases List.mem_append.mp hc with h | h
    · exact isIdentChar_not_special c (hall c (List.mem_of_mem_drop h))
    · rcases List.mem_cons.mp h with rfl | h
      · exact ⟨by decide, by decide⟩
      · exact hbody c h
  have hpp : preprocEnd s (i + 1 + 6 + 1 + name.data.length - 1) false =
      i + 9 + name.data.length + body.length := by
    rw [preprocEnd_run s (name.data.drop (name.data.length - 1) ++ ' ' :: body)
      (i + 1 + 6 + 1 + name.data.length - 1) rest hdropN hpre]
    simp only [List.length_append, List.length_cons, List.length_drop]
    omega
  unfold gcStep
  rw [if_neg (by decide), hget, if_neg (by decide), if_pos rfl, hrun,
    show (['d', 'e', 'f', 'i', 'n', 'e'] : List Char).length = 6 from rfl,
    if_pos (by decide), hspaces,
    show ([' '] : List Char).length = 1 from rfl, hnameRun, string_mk_data, hpp]
  simp only [Prod.mk.injEq]
  exact ⟨by omega, trivial⟩

theorem scanFrom_step_eq (s : List Char) (i sc : Nat) (last : String) (acc : List String)
    (j sc' : Nat) (last' : String) (acc' : List String) (hi : i < s.length)
    (hstep : gcStep s i sc last acc = (j, sc', last', acc')) :
    scanFrom s i sc last acc = scanFrom s j sc' last' acc' := by
  rw [scanFrom_step s i sc last acc hi, hstep]

theorem scan_scope_run (s : List Char) :
    ∀ (body : List Char) (i sc : Nat) (last : String) (acc : List String) (rest : List Char),
      0 < sc → scopeSafe body sc → s.drop i = body ++ rest →
      scanFrom s i sc last acc = scanFrom s (i + body.length) (endScope body sc) last acc := by
  intro body
  induction body with
  | nil =>
    intro i sc last acc rest hsc hsafe hdrop
    simp [endScope]
  | cons c cs ih =>
    intro i sc last acc rest hsc hsafe hdrop
    obtain ⟨hi, -, hdrop1⟩ := drop_cons_facts s i c (cs ++ rest)
      (by rw [hdrop, List.cons_append])
    by_cases hb : c = '\x7b'
    · subst hb
      have hsafe' : scopeSafe cs (sc + 1) := by simpa [scopeSafe] using hsafe
      have hstep : gcStep s i sc last acc = (i + 1, sc + 1, last, acc) := by
        rw [gcStep_scope s i sc last acc '\x7b' (cs ++ rest)
          (by rw [hdrop, List.cons_append]) hsc]
        simp
      rw [scanFrom_step_eq s i sc last acc (i + 1) (sc + 1) last acc hi hstep,
        ih (i + 1) (sc + 1) last acc rest (by omega) hsafe' hdrop1]
      have hE : endScope ('\x7b' :: cs) sc = endScope cs (sc + 1) := by simp [endScope]
      have hI : i + ('\x7b' :: cs).length = i + 1 + cs.length := by
        simp [List.length_cons]; omega
      rw [hE, hI]
    · by_cases hd : c = '\x7d'
      · subst hd
        have hsafe' : 1 < sc ∧ scopeSafe cs (sc - 1) := by
          simpa [scopeSafe] using hsafe
        have hstep : gcStep s i sc last acc = (i + 1, sc - 1, last, acc) := by
          rw [gcStep_scope s i sc last acc '\x7d' (cs ++ rest)
            (by rw [hdrop, List.cons_append]) hsc]
          simp
        rw [scanFrom_step_eq s i sc last acc (i + 1) (sc - 1) last acc hi hstep,
          ih (i + 1) (sc - 1) last acc rest (by omega) hsafe'.2 hdrop1]
        have hE : endScope ('\x7d' :: cs) sc = endScope cs (sc - 1) := by simp [endScope]
        have hI : i + ('\x7d' :: cs).length = i + 1 + cs.length := by
          simp [List.length_cons]; omega
        rw [hE, hI]
      · have hsafe' : scopeSafe cs sc := by simpa [scopeSafe, hb, hd] using hsafe
        have hstep : gcStep s i sc last acc = (i + 1, sc, last, acc) := by
          rw [gcStep_scope s i sc last acc c (cs ++ rest)
            (by rw [hdrop, List.cons_append]) hsc]
          simp [hb, hd]
        rw [scanFrom_step_eq s i sc last acc (i + 1) sc last acc hi hstep,
          ih (i + 1) sc last acc rest hsc hsafe' hdrop1]
        have hE : endScope (c :: cs) sc = endScope cs sc := by simp [endScope, hb, hd]
        have hI : i + (c :: cs).length = i + 1 + cs.length := by
          simp [List.length_cons]; omega
        rw [hE, hI]

theorem scan_stmt_define (s : List Char) (i : Nat) (last : String) (acc : List String)
    (name : String) (body rest : List Char)
    (hdrop : s.drop i = renderStmt (.defineStmt name body) ++ rest)
    (hwf : wfStmt (.defineStmt name body)) :
    scanFrom s i 0 last acc =
      scanFrom s (i + (renderStmt (.defineStmt name body)).length) 0 last (acc ++ [name]) := by
  obtain ⟨⟨hne, hall, hhead⟩, hbody⟩ := hwf
  have hdrop' : s.drop i = "#define ".toList ++ name.data ++ ' ' :: body ++ '\n' :: rest := by
    rw [hdrop]; simp [renderStmt, List.append_assoc]
  have hdropc : s.drop i = '#' :: ('d' :: 'e' :: 'f' :: 'i' :: 'n' :: 'e' :: ' ' ::
      (name.data ++ ' ' :: body ++ '\n' :: rest)) := by
    rw [hdrop']; rfl
  have hi : i < s.length := (drop_cons_facts s i '#' _ hdropc).1
  rw [scanFrom_step_eq s i 0 last acc (i + 10 + name.data.length + body.length) 0 last
    (acc ++ [name]) hi (gcStep_define s i last acc name body rest hdrop' hne hall hbody)]
  rw [show i + (renderStmt (.defineStmt name body)).length =
    i + 10 + name.data.length + body.length from by
      simp [renderStmt, show ("#define ".toList).length = 8 from rfl]; omega]

theorem scan_stmt_assign (s : List Char) (i : Nat) (last : String) (acc : List String)
    (name : String) (expr rest : List Char)
    (hdrop : s.drop i = renderStmt (.assignStmt name expr) ++ rest)
    (hwf : wfStmt (.assignStmt name expr)) :
    scanFrom s i 0 last acc =
      scanFrom s (i + (renderStmt (.assignStmt name expr)).length) 0 name (acc ++ [name]) := by
  obtain ⟨⟨hne, hall, hhead⟩, hq, hm, hexpr⟩ := hwf
  have hN : 0 < name.data.length := List.length_pos.mpr hne
  have hdrop' : s.drop i =
      name.data ++ (' ' :: '=' :: ' ' :: (expr ++ ';' :: '\n' :: rest)) := by
    rw [hdrop]
    simp [renderStmt, show " = ".toList = [' ', '=', ' '] from rfl, List.append_assoc]
  have hi : i < s.length := by
    have hlen := congrArg List.length hdrop'
    simp [List.length_drop] at hlen
    omega
  have hstep1 : gcStep s i 0 last acc = (i + name.data.length, 0, name, acc) := by
    rw [gcStep_ident s i last acc name (' ' :: '=' :: ' ' :: (expr ++ ';' :: '\n' :: rest))
      hdrop' hne hall hhead (List.takeWhile_cons_of_neg (by decide))]
    simp [hq, hm]
  have hd1 : s.drop (i + name.data.length) =
      ' ' :: ('=' :: ' ' :: (expr ++ ';' :: '\n' :: rest)) := by
    rw [drop_add s i name.data.length, hdrop', List.drop_append_of_le_length (le_refl _)]
    simp
  obtain ⟨hi1, -, hd2⟩ := drop_cons_facts s (i + name.data.length) ' ' _ hd1
  have hstep2 : gcStep s (i + name.data.length) 0 name acc =
      (i + name.data.length + 1, 0, name, acc) :=
    gcStep_single s (i + name.data.length) name acc ' ' _ hd1 (by decide) (by decide)
      (by decide) (by decide) (by decide) (by decide) (by decide)
  obtain ⟨hi2, -, hd3⟩ := drop_cons_facts s (i + name.data.length + 1) '=' _ hd2
  have hmid' : ∀ c ∈ ' ' :: expr, c ≠ ';' := by
    intro c hc
    rcases List.mem_cons.mp hc with rfl | hc
    · decide
    · exact hexpr c hc
  have hstep3 : gcStep s (i + name.data.length + 1) 0 name acc =
      (i + name.data.length + expr.length + 4, 0, name, acc ++ [name]) := by
    rw [gcStep_eq s (i + name.data.length + 1) name acc (' ' :: expr) ('\n' :: rest)
      (by rw [hd2]; rfl) hmid']
    simp only [Prod.mk.injEq, List.length_cons]
    exact ⟨by omega, trivial⟩
  obtain ⟨-, -, hd4⟩ := drop_cons_facts s (i + name.data.length + 1 + 1) ' ' _ hd3
  have hd5 : s.drop (i + name.data.length + expr.length + 4) = '\n' :: rest := by
    rw [show i + name.data.length + expr.length + 4 =
        (i + name.data.length + 1 + 1 + 1) + (expr.length + 1) from by omega,
      drop_add s (i + name.data.length + 1 + 1 + 1) (expr.length + 1), hd4,
      show expr ++ ';' :: '\n' :: rest = (expr ++ [';']) ++ '\n' :: rest from by simp,
      List.drop_append_of_le_length (by simp)]
    simp [List.drop_eq_nil_of_le]
  obtain ⟨hi4, -, -⟩ := drop_cons_facts s (i + name.data.length + expr.length + 4) '\n' _ hd5
  have hstep4 : gcStep s (i + name.data.length + expr.length + 4) 0 name (acc ++ [name]) =
      (i + name.data.length + expr.length + 4 + 1, 0, name, acc ++ [name]) :=
    gcStep_single s (i + name.data.length + expr.length + 4) name (acc ++ [name]) '\n' rest
      hd5 (by decide) (by decide) (by decide) (by decide) (by decide) (by decide) (by decide)
  rw [scanFrom_step_eq s i 0 last acc (i + name.data.length) 0 name acc hi hstep1,
    scanFrom_step_eq s (i + name.data.length) 0 name acc (i + name.data.length + 1) 0 name
      acc hi1 hstep2,
    scanFrom_step_eq s (i + name.data.length + 1) 0 name acc
      (i + name.data.length + expr.length + 4) 0 name (acc ++ [name]) hi2 hstep3,
    scanFrom_step_eq s (i + name.data.length + expr.length + 4) 0 name (acc ++ [name])
      (i + name.data.length + expr.length + 4 + 1) 0 name (acc ++ [name]) hi4 hstep4]
  rw [show i + (renderStmt (.assignStmt name expr)).length =
    i + name.data.length + expr.length + 4 + 1 from by
      simp [renderStmt, show (" = ".toList).length = 3 from rfl]; omega]

theorem drop_ne_nil_lt (s t : List Char) (i : Nat) (h : s.drop i = t) (hne : t ≠ []) :
    i < s.length := by
  by_contra hc
  rw [List.drop_eq_nil_of_le (by omega)] at h
  exact hne h.symm

theorem scan_stmt_func (s : List Char) (i : Nat) (last : String) (acc : List String)
    (ret name : String) (body rest : List Char)
    (hdrop : s.drop i = renderStmt (.funcStmt ret name body) ++ rest)
    (hwf : wfStmt (.funcStmt ret name body)) :
    ∃ last', scanFrom s i 0 last acc =
      scanFrom s (i + (renderStmt (.funcStmt ret name body)).length) 0 last'
        (acc ++ [name]) := by
  obtain ⟨⟨hneR, hallR, hheadR⟩, ⟨hne, hall, hhead⟩, hq, hm, hlay, hsafe, hend⟩ := hwf
  have hR : 0 < ret.data.length := List.length_pos.mpr hneR
  have hdrop' : s.drop i = ret.data ++ (' ' :: (name.data ++
      ('(' :: ')' :: ' ' :: '\x7b' :: (body ++ '\x7d' :: '\n' :: rest)))) := by
    rw [hdrop]
    simp [renderStmt, List.append_assoc]
  have hi : i < s.length := drop_ne_nil_lt s _ _ hdrop' (by simp [hneR])
  obtain ⟨last1, hstep1⟩ : ∃ l1, gcStep s i 0 last acc = (i + ret.data.length, 0, l1, acc) :=
    ⟨_, gcStep_ident s i last acc ret (' ' :: (name.data ++
      ('(' :: ')' :: ' ' :: '\x7b' :: (body ++ '\x7d' :: '\n' :: rest)))) hdrop' hneR hallR
      hheadR (List.takeWhile_cons_of_neg (by decide))⟩
  have hd1 : s.drop (i + ret.data.length) = ' ' :: (name.data ++
      ('(' :: ')' :: ' ' :: '\x7b' :: (body ++ '\x7d' :: '\n' :: rest))) := by
    rw [drop_add s i ret.data.length, hdrop', List.drop_append_of_le_length (le_refl _)]
    simp
  obtain ⟨hi1, -, hd2⟩ := drop_cons_facts s (i + ret.data.length) ' ' _ hd1
  have hstep2 : gcStep s (i + ret.data.length) 0 last1 acc =
      (i + ret.data.length + 1, 0, last1, acc) :=
    gcStep_single s (i + ret.data.length) last1 acc ' ' _ hd1 (by decide) (by decide)
      (by decide) (by decide) (by decide) (by decide) (by decide)
  have hi2 : i + ret.data.length + 1 < s.length :=
    drop_ne_nil_lt s _ _ hd2 (by simp)
  have hstep3 : gcStep s (i + ret.data.length + 1) 0 last1 acc =
      (i + ret.data.length + 1 + name.data.length, 0, name, acc) := by
    rw [gcStep_ident s (i + ret.data.length + 1) last1 acc name
      ('(' :: ')' :: ' ' :: '\x7b' :: (body ++ '\x7d' :: '\n' :: rest)) hd2 hne hall hhead
      (List.takeWhile_cons_of_neg (by decide))]
    simp [hq, hm]
  have hd3 : s.drop (i + ret.data.length + 1 + name.data.length) =
      '(' :: (')' :: ' ' :: '\x7b' :: (body ++ '\x7d' :: '\n' :: rest)) := by
    rw [drop_add s (i + ret.data.length + 1) name.data.length, hd2,
      List.drop_append_of_le_length (le_refl _)]
    simp
  obtain ⟨hi3, -, hd4⟩ :=
    drop_cons_facts s (i + ret.data.length + 1 + name.data.length) '(' _ hd3
  have hstep4 : gcStep s (i + ret.data.length + 1 + name.data.length) 0 name acc =
      (i + ret.data.length + 1 + name.data.length + 1, 0, name, acc ++ [name]) :=
    gcStep_paren s (i + ret.data.length + 1 + name.data.length) name acc _ hd3 hlay
  obtain ⟨hi4, -, hd5⟩ :=
    drop_cons_facts s (i + ret.data.length + 1 + name.data.length + 1) ')' _ hd4
  have hstep5 : gcStep s (i + ret.data.length + 1 + name.data.length + 1) 0 name
      (acc ++ [name]) =
      (i + ret.data.length + 1 + name.data.length + 1 + 1, 0, name, acc ++ [name]) :=
    gcStep_single s (i + ret.data.length + 1 + name.data.length + 1) name (acc ++ [name])
      ')' _ hd4 (by decide) (by decide) (by decide) (by decide) (by decide) (by decide)
      (by decide)
  obtain ⟨hi5, -, hd6⟩ :=
    drop_cons_facts s (i + ret.data.length + 1 + name.data.length + 1 + 1) ' ' _ hd5
  have hstep6 : gcStep s (i + ret.data.length + 1 + name.data.length + 1 + 1) 0 name
      (acc ++ [name]) =
      (i + ret.data.length + 1 + name.data.length + 1 + 1 + 1, 0, name, acc ++ [name]) :=
    gcStep_single s (i + ret.data.length + 1 + name.data.length + 1 + 1) name (acc ++ [name])
      ' ' _ hd5 (by decide) (by decide) (by decide) (by decide) (by decide) (by decide)
      (by decide)
  obtain ⟨hi6, -, hd7⟩ :=
    drop_cons_facts s (i + ret.data.length + 1 + name.data.length + 1 + 1 + 1) '\x7b' _ hd6
  have hstep7 : gcStep s (i + ret.data.length + 1 + name.data.length + 1 + 1 + 1) 0 name
      (acc ++ [name]) =
      (i + ret.data.length + 1 + name.data.length + 1 + 1 + 1 + 1, 1, name, acc ++ [name]) :=
    gcStep_brace_open s (i + ret.data.length + 1 + name.data.length + 1 + 1 + 1) name
      (acc ++ [name]) _ hd6
  have hscope := scan_scope_run s body
    (i + ret.data.length + 1 + name.data.length + 1 + 1 + 1 + 1) 1 name (acc ++ [name])
    ('\x7d' :: '\n' :: rest) (by omega) hsafe hd7
  rw [hend] at hscope
  have hd8 : s.drop
      (i + ret.data.length + 1 + name.data.length + 1 + 1 + 1 + 1 + body.length) =
      '\x7d' :: ('\n' :: rest) := by
    rw [drop_add s (i + ret.data.length + 1 + name.data.length + 1 + 1 + 1 + 1) body.length,
      hd7, List.drop_append_of_le_length (le_refl _)]
    simp
  obtain ⟨hi8, -, hd9⟩ := drop_cons_facts s
    (i + ret.data.length + 1 + name.data.length + 1 + 1 + 1 + 1 + body.length) '\x7d' _ hd8
  have hstep8 : gcStep s
      (i + ret.data.length + 1 + name.data.length + 1 + 1 + 1 + 1 + body.length) 1 name
      (acc ++ [name]) =
      (i + ret.data.length + 1 + name.data.length + 1 + 1 + 1 + 1 + body.length + 1, 0, name,
        acc ++ [name]) := by
    rw [gcStep_scope s
      (i + ret.data.length + 1 + name.data.length + 1 + 1 + 1 + 1 + body.length) 1 name
      (acc ++ [name]) '\x7d' ('\n' :: rest) hd8 (by omega)]
    simp
  have hi9 :
      i + ret.data.length + 1 + name.data.length + 1 + 1 + 1 + 1 + body.length + 1 <
        s.length := (drop_cons_facts s _ '\n' rest hd9).1
  have hstep9 : gcStep s
      (i + ret.data.length + 1 + name.data.length + 1 + 1 + 1 + 1 + body.length + 1) 0 name
      (acc ++ [name]) =
      (i + ret.data.length + 1 + name.data.length + 1 + 1 + 1 + 1 + body.length + 1 + 1, 0,
        name, acc ++ [name]) :=
    gcStep_single s (i + ret.data.length + 1 + name.data.length + 1 + 1 + 1 + 1 +
      body.length + 1) name (acc ++ [name]) '\n' rest hd9 (by decide) (by decide) (by decide)
      (by decide) (by decide) (by decide) (by decide)
  refine ⟨name, ?_⟩
  rw [scanFrom_step_eq s i 0 last acc (i + ret.data.length) 0 last1 acc hi hstep1,
    scanFrom_step_eq s (i + ret.data.length) 0 last1 acc (i + ret.data.length + 1) 0 last1
      acc hi1 hstep2,
    scanFrom_step_eq s (i + ret.data.length + 1) 0 last1 acc
      (i + ret.data.length + 1 + name.data.length) 0 name acc hi2 hstep3,
    scanFrom_step_eq s (i + ret.data.length + 1 + name.data.length) 0 name acc
      (i + ret.data.length + 1 + name.data.length + 1) 0 name (acc ++ [name]) hi3 hstep4,
    scanFrom_step_eq s (i + ret.data.length + 1 + name.data.length + 1) 0 name
      (acc ++ [name]) (i + ret.data.length + 1 + name.data.length + 1 + 1) 0 name
      (acc ++ [name]) hi4 hstep5,
    scanFrom_step_eq s (i + ret.data.length + 1 + name.data.length + 1 + 1) 0 name
      (acc ++ [name]) (i + ret.data.length + 1 + name.data.length + 1 + 1 + 1) 0 name
      (acc ++ [name]) hi5 hstep6,
    scanFrom_step_eq s (i + ret.data.length + 1 + name.data.length + 1 + 1 + 1) 0 name
      (acc ++ [name]) (i + ret.data.length + 1 + name.data.length + 1 + 1 + 1 + 1) 1 name
      (acc ++ [name]) hi6 hstep7,
    hscope,
    scanFrom_step_eq s
      (i + ret.data.length + 1 + name.data.length + 1 + 1 + 1 + 1 + body.length) 1 name
      (acc ++ [name])
      (i + ret.data.length + 1 + name.data.length + 1 + 1 + 1 + 1 + body.length + 1) 0 name
      (acc ++ [name]) hi8 hstep8,
    scanFrom_step_eq s
      (i + ret.data.length + 1 + name.data.length + 1 + 1 + 1 + 1 + body.length + 1) 0 name
      (acc ++ [name])
      (i + ret.data.length + 1 + name.data.length + 1 + 1 + 1 + 1 + body.length + 1 + 1) 0
      name (acc ++ [name]) hi9 hstep9]
  rw [show i + (renderStmt (.funcStmt ret name body)).length =
    i + ret.data.length + 1 + name.data.length + 1 + 1 + 1 + 1 + body.length + 1 + 1 from by
      simp [renderStmt]; omega]

theorem scan_stmt (s : List Char) (st : GlslStmt) (i : Nat) (last : String)
    (acc : List String) (rest : List Char)
    (hdrop : s.drop i = renderStmt st ++ rest) (hwf : wfStmt st) :
    ∃ last', scanFrom s i 0 last acc =
      scanFrom s (i + (renderStmt st).length) 0 last' (acc ++ [declaredName st]) := by
  cases st with
  | defineStmt name body =>
    exact ⟨last, scan_stmt_define s i last acc name body rest hdrop hwf⟩
  | assignStmt name expr =>
    exact ⟨name, scan_stmt_assign s i last acc name expr rest hdrop hwf⟩
  | funcStmt ret name body =>
    exact scan_stmt_func s i last acc ret name body rest hdrop hwf

theorem scan_program (s : List Char) :
    ∀ (stmts : List GlslStmt) (i : Nat) (last : String) (acc : List String),
      s.drop i = (stmts.map renderStmt).flatten → (∀ st ∈ stmts, wfStmt st) →
      scanFrom s i 0 last acc = acc ++ stmts.map declaredName := by
  intro stmts
  induction stmts with
  | nil =>
    intro i last acc hdrop hwf
    have hlen : s.length ≤ i := by
      have hl := congrArg List.length hdrop
      simp [List.length_drop] at hl
      omega
    rw [scanFrom_out s i 0 last acc hlen]
    simp
  | cons st sts ih =>
    intro i last acc hdrop hwf
    have hdrop' : s.drop i = renderStmt st ++ (sts.map renderStmt).flatten := by
      rw [hdrop]; simp
    obtain ⟨last', hstep⟩ := scan_stmt s st i last acc _ hdrop' (hwf st (by simp))
    rw [hstep]
    have hdropNext : s.drop (i + (renderStmt st).length) = (sts.map renderStmt).flatten := by
      rw [drop_add s i (renderStmt st).length, hdrop',
        List.drop_append_of_le_length (le_refl _)]
      simp
    rw [ih (i + (renderStmt st).length) last' (acc ++ [declaredName st]) hdropNext
      (fun q hq => hwf q (List.mem_cons_of_mem st hq))]
    simp

/-- C4 (corrected): on any top-level program made of well-formed `#define`
lines, depth-0 single assignments and function definitions with balanced
brace-safe bodies, `GlobalConflicts` reports exactly the declared global
names (up to the length-descending sort): every `#define` name, every
assigned global, and every defined function name, and nothing that
appears only inside `\x7b ... \x7d` block scope.  (The original claim is
refuted by `C4_counterexample`: the scanner counts braces even inside
comments once the depth is positive, and its `=` handler skips to the
terminating `;`, dropping later depth-0 assignments of the same
statement.) -/
theorem C4_scanner_reports_declared_names (stmts : List GlslStmt)
    (hwf : ∀ st ∈ stmts, wfStmt st) :
    List.Perm (GlobalConflicts ((stmts.map renderStmt).flatten))
      (stmts.map declaredName) := by
  rw [GlobalConflicts_eq_scanFrom,
    scan_program ((stmts.map renderStmt).flatten) stmts 0 "" [] rfl hwf,
    List.nil_append]
  exact List.perm_insertionSort _ _

/-- Witness for the corrected C4 on the program
`#define PI 3` / `color = 1;` / `void process() \x7b x \x7d`. -/
theorem C4_scanner_reports_declared_names_witness :
    (∀ st ∈ ([GlslStmt.defineStmt "PI" ['3'], GlslStmt.assignStmt "color" ['1'],
      GlslStmt.funcStmt "void" "process" [' ', 'x', ' ']] : List GlslStmt), wfStmt st) ∧
    List.Perm
      (GlobalConflicts (([GlslStmt.defineStmt "PI" ['3'],
        GlslStmt.assignStmt "color" ['1'],
        GlslStmt.funcStmt "void" "process" [' ', 'x', ' ']].map renderStmt).flatten))
      ["PI", "color", "process"] := by
  have hwf : ∀ st ∈ ([GlslStmt.defineStmt "PI" ['3'], GlslStmt.assignStmt "color" ['1'],
      GlslStmt.funcStmt "void" "process" [' ', 'x', ' ']] : List GlslStmt), wfStmt st := by
    intro st hst
    simp only [List.mem_cons, List.not_mem_nil, or_false] at hst
    rcases hst with rfl | rfl | rfl
    · exact ⟨⟨by decide, by decide, by decide⟩, by decide⟩
    · exact ⟨⟨by decide, by decide, by decide⟩, by decide, by decide, by decide⟩
    · refine ⟨⟨by decide, by decide, by decide⟩, ⟨by decide, by decide, by decide⟩,
        by decide, by decide, by decide, ?_, by decide⟩
      simp [scopeSafe]
  exact ⟨hwf, C4_scanner_reports_declared_names _ hwf⟩
